import Mathlib

/-!
Shallow embedding of the agricultural-water RDF pipeline of this repository
(`schema/rdf_transformacion.py` and `schema/enriquecimiento_wikidata.py`):
text normalization, URI construction, RDF graph construction from CSV rows,
and the Wikidata enrichment pass with its in-run cache, modelled over an
explicit network oracle.  Machine floats are modelled with exact rationals,
the mutable global `rdflib.Graph` as an explicitly threaded duplicate-free
list of triples (rdflib graphs have set semantics), and a Python exception
escaping a function as an early return that keeps the triples added so far
(the source has no rollback).  Theorems at the end settle the specified
properties.
-/

namespace AguaCultivos

set_option maxRecDepth 100000

/-- An exact rational in lowest terms with positive denominator (the
idealized value of a parsed Python float), kept as a bare pair so that the
kernel can evaluate all arithmetic on it. -/
structure Frac where
  num : ℤ
  den : ℕ
deriving DecidableEq

/-- Reduce a fraction (denominator positive on every use site) to the
canonical form, so that value equality is representation equality. -/
def fracNorm (n : ℤ) (d : ℕ) : Frac :=
  let g := Nat.gcd n.natAbs d
  ⟨n / (g : ℤ), d / g⟩

/-- The rational value of a `Frac`. -/
def ratOf (f : Frac) : ℚ := (f.num : ℚ) / (f.den : ℚ)

/-- RDF object position: a URI reference or a literal.  Numeric literals
(`Literal(..., datatype=XSD.decimal)` and the float literals of the
enrichment step) carry an exact rational as a canonical `Frac`,
`Literal(int(...))` an integer, and string literals an optional language
tag. -/
inductive RDFObject where
  | uri : String → RDFObject
  | litStr : String → Option String → RDFObject
  | litNum : Frac → RDFObject
  | litInt : Int → RDFObject
deriving DecidableEq

/-- One RDF triple of the store. -/
structure Triple where
  subj : String
  pred : String
  obj : RDFObject
deriving DecidableEq

/-- An `rdflib.Graph` is a set of triples; modelled as a duplicate-free list,
`g.add` being a no-op on a triple already present. -/
abbrev Graph := List Triple

/-- `g.add(t)` of rdflib: set insertion (appended at the end when new). -/
def add (g : Graph) (t : Triple) : Graph := if t ∈ g then g else g ++ [t]

/-- A sequence of `g.add(...)` calls, in source order. -/
def addAll (g : Graph) (ts : List Triple) : Graph := ts.foldl add g

-- Namespace constants of both source files.
def EXs : String := "http://example.org/agricultura/"
def rdf_type : String := "http://www.w3.org/1999/02/22-rdf-syntax-ns#type"
def owl_sameAs : String := "http://www.w3.org/2002/07/owl#sameAs"
def schema_Place : String := "https://schema.org/Place"
def schema_name : String := "https://schema.org/name"
def schema_additionalType : String := "https://schema.org/additionalType"
def schema_containedInPlace : String := "https://schema.org/containedInPlace"
def schema_Product : String := "https://schema.org/Product"
def schema_category : String := "https://schema.org/category"
def schema_location : String := "https://schema.org/location"
def schema_Event : String := "https://schema.org/Event"
def schema_about : String := "https://schema.org/about"
def schema_QuantitativeValue : String := "https://schema.org/QuantitativeValue"
def schema_value : String := "https://schema.org/value"
def schema_unitCode : String := "https://schema.org/unitCode"
def schema_area : String := "https://schema.org/area"
def schema_additionalProperty : String := "https://schema.org/additionalProperty"
def schema_MonetaryAmount : String := "https://schema.org/MonetaryAmount"
def schema_currency : String := "https://schema.org/currency"
def schema_GeoCoordinates : String := "https://schema.org/GeoCoordinates"
def schema_longitude : String := "https://schema.org/longitude"
def schema_latitude : String := "https://schema.org/latitude"
def schema_geo : String := "https://schema.org/geo"
def schema_population : String := "https://schema.org/population"

/- ------------------------------------------------------------------
Python text primitives used by both source files.
------------------------------------------------------------------ -/

/-- Python `\s` / `str.strip()` whitespace (the ASCII part, which is all the
pipeline's data contains). -/
def isWsPy (c : Char) : Bool :=
  c == ' ' || c == '\t' || c == '\n' || c == '\r' || c == '\x0b' || c == '\x0c'

/-- `str.strip()` on a character list. -/
def pyStripList (l : List Char) : List Char :=
  ((l.dropWhile isWsPy).reverse.dropWhile isWsPy).reverse

/-- Python `str.strip()`. -/
def pyStrip (s : String) : String := String.mk (pyStripList s.data)

/-- Python `str.lower()` on one character, on the alphabet this pipeline
meets (ASCII plus the Spanish/Valencian accented letters). -/
def pyLowerChar (c : Char) : Char :=
  if 65 ≤ c.toNat && c.toNat ≤ 90 then Char.ofNat (c.toNat + 32)
  else match c with
    | 'Á' => 'á' | 'À' => 'à' | 'Â' => 'â' | 'Ä' => 'ä'
    | 'É' => 'é' | 'È' => 'è' | 'Ê' => 'ê' | 'Ë' => 'ë'
    | 'Í' => 'í' | 'Ì' => 'ì' | 'Î' => 'î' | 'Ï' => 'ï'
    | 'Ó' => 'ó' | 'Ò' => 'ò' | 'Ô' => 'ô' | 'Ö' => 'ö'
    | 'Ú' => 'ú' | 'Ù' => 'ù' | 'Û' => 'û' | 'Ü' => 'ü'
    | 'Ñ' => 'ñ' | 'Ç' => 'ç'
    | _ => c

/-- Python `str.lower()`. -/
def pyLower (s : String) : String := String.mk (s.data.map pyLowerChar)

/-- `str.replace(pat, rep)` core: leftmost, non-overlapping, all
occurrences; the pattern is the nonempty list `p :: ps`.  The fuel
argument (kept at the length of the list, which only ever shrinks) makes
the recursion structural so that the kernel can evaluate it. -/
def replaceListAux (p : Char) (ps rep : List Char) : ℕ → List Char → List Char
  | _, [] => []
  | 0, l => l
  | fuel + 1, c :: rest =>
    if (p :: ps).isPrefixOf (c :: rest) then
      rep ++ replaceListAux p ps rep fuel (rest.drop ps.length)
    else
      c :: replaceListAux p ps rep fuel rest

/-- `str.replace(pat, rep)` core, at full fuel. -/
def replaceList (p : Char) (ps rep : List Char) (l : List Char) : List Char :=
  replaceListAux p ps rep l.length l

/-- Python `s.replace(pat, rep)` (for the nonempty patterns the sources
use; Python's empty-pattern behaviour is not needed). -/
def pyReplaceAll (s pat rep : String) : String :=
  match pat.data with
  | [] => s
  | p :: ps => String.mk (replaceList p ps rep.data s.data)

/-- Python `s.split()` (no argument) core: split on whitespace runs,
dropping empty pieces; `cur` is the current token, reversed. -/
def splitWsAux (cur : List Char) : List Char → List String
  | [] => if cur = [] then [] else [String.mk cur.reverse]
  | c :: rest =>
    if isWsPy c then
      if cur = [] then splitWsAux [] rest
      else String.mk cur.reverse :: splitWsAux [] rest
    else splitWsAux (c :: cur) rest

/-- Python `s.split()` (no argument). -/
def pySplitWs (s : String) : List String := splitWsAux [] s.data

/-- Substring search: does `pat` occur in the list? -/
def containsSubList (pat : List Char) : List Char → Bool
  | [] => decide (pat = [])
  | c :: rest => pat.isPrefixOf (c :: rest) || containsSubList pat rest

/-- Python `pat in s` (substring containment). -/
def containsSub (s pat : String) : Bool :=
  containsSubList pat.data s.data

/-- Digit run to a natural number. -/
def natOfDigits (l : List Char) : ℕ :=
  l.foldl (fun a c => a * 10 + (c.toNat - 48)) 0

/-- Unsigned decimal mantissa of Python `float()`: `d+`, `d+.d*` or `.d+`;
the value is the unnormalized pair (integer-and-fraction digits, power of
ten). -/
def parseUnsignedDec (cs : List Char) : Option (ℕ × ℕ) :=
  let ip := cs.takeWhile Char.isDigit
  let rest := cs.dropWhile Char.isDigit
  match rest with
  | [] => if ip = [] then none else some (natOfDigits ip, 1)
  | '.' :: fp =>
    if fp.all Char.isDigit ∧ (ip ≠ [] ∨ fp ≠ []) then
      some (natOfDigits ip * 10 ^ fp.length + natOfDigits fp, 10 ^ fp.length)
    else none
  | _ => none

/-- Optional sign then unsigned mantissa. -/
def parseSignedDec (cs : List Char) : Option (ℤ × ℕ) :=
  match cs with
  | '+' :: t => (parseUnsignedDec t).map (fun p => ((p.1 : ℤ), p.2))
  | '-' :: t => (parseUnsignedDec t).map (fun p => (-(p.1 : ℤ), p.2))
  | _ => (parseUnsignedDec cs).map (fun p => ((p.1 : ℤ), p.2))

/-- Signed digit run, for the exponent part of Python `float()`. -/
def parseSignedInt (cs : List Char) : Option ℤ :=
  match cs with
  | '+' :: t => if t ≠ [] ∧ t.all Char.isDigit then some (natOfDigits t) else none
  | '-' :: t => if t ≠ [] ∧ t.all Char.isDigit then some (-(natOfDigits t : ℤ)) else none
  | _ => if cs ≠ [] ∧ cs.all Char.isDigit then some (natOfDigits cs) else none

/-- Python `float(s)` on the decimal/exponent grammar the pipeline meets
(surrounding whitespace allowed; `inf`, `nan` and underscore separators are
not modelled), with exact rational values; `none` models the raised
`ValueError`. -/
def pyFloat (s : String) : Option Frac :=
  let cs := pyStripList s.data
  match cs.span (fun c => c ≠ 'e' ∧ c ≠ 'E') with
  | (m, []) => (parseSignedDec m).map (fun p => fracNorm p.1 p.2)
  | (m, _e :: ex) => do
      let mv ← parseSignedDec m
      let ev ← parseSignedInt ex
      some (if 0 ≤ ev then fracNorm (mv.1 * 10 ^ ev.toNat) mv.2
            else fracNorm mv.1 (mv.2 * 10 ^ (-ev).toNat))

/- ------------------------------------------------------------------
`schema/rdf_transformacion.py`
------------------------------------------------------------------ -/

/-- Characters kept by `re.sub(r'[^\w\s-]', '', ...)`: Python `\w` on the
alphabet this pipeline meets (ASCII alphanumerics, underscore, and the
Spanish/Valencian letters). -/
def isWordChar (c : Char) : Bool :=
  (97 ≤ c.toNat && c.toNat ≤ 122) || (65 ≤ c.toNat && c.toNat ≤ 90) ||
  (48 ≤ c.toNat && c.toNat ≤ 57) || c == '_' ||
  c == 'á' || c == 'à' || c == 'â' || c == 'ä' ||
  c == 'é' || c == 'è' || c == 'ê' || c == 'ë' ||
  c == 'í' || c == 'ì' || c == 'î' || c == 'ï' ||
  c == 'ó' || c == 'ò' || c == 'ô' || c == 'ö' ||
  c == 'ú' || c == 'ù' || c == 'û' || c == 'ü' ||
  c == 'ñ' || c == 'ç'

/-- The accent-removal substitutions `re.sub(r'[áàâä]', 'a', ...)` …
`re.sub(r'[ñ]', 'n', ...)` (they act on the lowercased text). -/
def quitar_acento (c : Char) : Char :=
  match c with
  | 'á' | 'à' | 'â' | 'ä' => 'a'
  | 'é' | 'è' | 'ê' | 'ë' => 'e'
  | 'í' | 'ì' | 'î' | 'ï' => 'i'
  | 'ó' | 'ò' | 'ô' | 'ö' => 'o'
  | 'ú' | 'ù' | 'û' | 'ü' => 'u'
  | 'ñ' => 'n'
  | _ => c

/-- Separator class of `re.sub(r'[-\s]+', '_', ...)`. -/
def isSep (c : Char) : Bool := isWsPy c || c == '-'

/-- Collapse every run of separators to a single underscore (`prevSep`
records whether the previous character belonged to the current run). -/
def collapseSepAux (prevSep : Bool) : List Char → List Char
  | [] => []
  | c :: rest =>
    if isSep c then
      if prevSep then collapseSepAux true rest
      else '_' :: collapseSepAux true rest
    else c :: collapseSepAux false rest

/-- `limpiar_texto`: strip, lowercase, remove accents, drop characters
outside `[\w\s-]`, collapse separator runs to `_`. -/
def limpiar_texto (texto : String) : String :=
  let t1 := pyLower (pyStrip texto)
  let t2 := t1.data.map quitar_acento
  let t3 := t2.filter (fun c => isWordChar c || isWsPy c || c == '-')
  String.mk (collapseSepAux false t3)

/-- `crear_uri`: `EX[f"{tipo}/{nombre_limpio}"]`. -/
def crear_uri (tipo nombre : String) : String :=
  EXs ++ (tipo ++ "/" ++ limpiar_texto nombre)

/-- `convertir_a_float`: strip, decimal-comma to dot, then `float()`;
`none` models the `ValueError` escaping to `procesar_csv`. -/
def convertir_a_float (valor_str : String) : Option Frac :=
  pyFloat (pyReplaceAll (pyStrip valor_str) "," ".")

/-- One CSV row as `csv.DictReader` delivers it.  The three hierarchy
fields are `Option String`: `none` models a `None` cell (short row), which
makes `limpiar_texto` raise at its first use.  The remaining fields are the
raw cell strings. -/
structure Row where
  provincia : Option String
  comarca : Option String
  municipio : Option String
  grupo_de_cultivo : String
  cultivo : String
  superficie_cultivada : String
  dotacion : String
  consumo_estimado : String
  coste_estimado : String
deriving DecidableEq

/-- `agregar_lugar`: type, name and kind triples, plus the containment
triple when a container is given; returns the place URI. -/
def agregar_lugar (g : Graph) (nombre tipo : String)
    (contenedor : Option (String × String)) : Graph × String :=
  let uri_lugar := crear_uri tipo nombre
  let ts : List Triple :=
    [⟨uri_lugar, rdf_type, .uri schema_Place⟩,
     ⟨uri_lugar, schema_name, .litStr nombre (some "es")⟩,
     ⟨uri_lugar, schema_additionalType, .litStr tipo (some "es")⟩] ++
    (match contenedor with
     | some c => [⟨uri_lugar, schema_containedInPlace, .uri (crear_uri c.1 c.2)⟩]
     | none => [])
  (addAll g ts, uri_lugar)

/-- `agregar_cultivo`. -/
def agregar_cultivo (g : Graph) (grupo cultivo : String)
    (ubicacion_uri : String) : Graph × String :=
  let uri_cultivo := crear_uri "cultivo" (grupo ++ "_" ++ cultivo)
  (addAll g
    [⟨uri_cultivo, rdf_type, .uri schema_Product⟩,
     ⟨uri_cultivo, schema_name, .litStr cultivo (some "es")⟩,
     ⟨uri_cultivo, schema_category, .litStr grupo (some "es")⟩,
     ⟨uri_cultivo, schema_location, .uri ubicacion_uri⟩], uri_cultivo)

/-- `agregar_registro_agricola`.  Exceptions (a `None` hierarchy name
reaching `limpiar_texto`, or a `ValueError` from `convertir_a_float`)
escape to the caller after the triples already added; each early return
models that, with `false` as the failure flag. -/
def agregar_registro_agricola (g : Graph) (row : Row) (contador : ℕ) :
    Graph × Bool :=
  match row.provincia with
  | none => (g, false)
  | some provincia =>
  let r1 := agregar_lugar g provincia "provincia" none
  match row.comarca with
  | none => (r1.1, false)
  | some comarca =>
  let r2 := agregar_lugar r1.1 comarca "comarca" (some ("provincia", provincia))
  match row.municipio with
  | none => (r2.1, false)
  | some municipio =>
  let r3 := agregar_lugar r2.1 municipio "municipio" (some ("comarca", comarca))
  let uri_municipio := r3.2
  let r4 := agregar_cultivo r3.1 row.grupo_de_cultivo row.cultivo uri_municipio
  let uri_cultivo := r4.2
  let uri_registro := EXs ++ ("registro/" ++ toString contador)
  let g5 := addAll r4.1
    [⟨uri_registro, rdf_type, .uri schema_Event⟩,
     ⟨uri_registro, schema_name,
        .litStr ("Cultivo de " ++ row.cultivo ++ " en " ++ municipio) (some "es")⟩,
     ⟨uri_registro, schema_location, .uri uri_municipio⟩,
     ⟨uri_registro, schema_about, .uri uri_cultivo⟩]
  match convertir_a_float row.superficie_cultivada with
  | none => (g5, false)
  | some superficie =>
  let uri_superficie := uri_registro ++ "/superficie"
  let g6 := addAll g5
    [⟨uri_superficie, rdf_type, .uri schema_QuantitativeValue⟩,
     ⟨uri_superficie, schema_value, .litNum superficie⟩,
     ⟨uri_superficie, schema_unitCode, .litStr "HEC" none⟩,
     ⟨uri_superficie, schema_name, .litStr "Superficie cultivada" (some "es")⟩,
     ⟨uri_registro, schema_area, .uri uri_superficie⟩]
  match convertir_a_float row.dotacion with
  | none => (g6, false)
  | some dotacion =>
  let uri_dotacion := uri_registro ++ "/dotacion"
  let g7 := addAll g6
    [⟨uri_dotacion, rdf_type, .uri schema_QuantitativeValue⟩,
     ⟨uri_dotacion, schema_value, .litNum dotacion⟩,
     ⟨uri_dotacion, schema_unitCode, .litStr "MTQ" none⟩,
     ⟨uri_dotacion, schema_name, .litStr "Dotación de agua" (some "es")⟩,
     ⟨uri_registro, schema_additionalProperty, .uri uri_dotacion⟩]
  match convertir_a_float row.consumo_estimado with
  | none => (g7, false)
  | some consumo =>
  let uri_consumo := uri_registro ++ "/consumo"
  let g8 := addAll g7
    [⟨uri_consumo, rdf_type, .uri schema_QuantitativeValue⟩,
     ⟨uri_consumo, schema_value, .litNum consumo⟩,
     ⟨uri_consumo, schema_unitCode, .litStr "MTQ" none⟩,
     ⟨uri_consumo, schema_name, .litStr "Consumo estimado de agua" (some "es")⟩,
     ⟨uri_registro, schema_additionalProperty, .uri uri_consumo⟩]
  match convertir_a_float row.coste_estimado with
  | none => (g8, false)
  | some coste =>
  let uri_coste := uri_registro ++ "/coste"
  let g9 := addAll g8
    [⟨uri_coste, rdf_type, .uri schema_MonetaryAmount⟩,
     ⟨uri_coste, schema_value, .litNum coste⟩,
     ⟨uri_coste, schema_currency, .litStr "EUR" none⟩,
     ⟨uri_coste, schema_name, .litStr "Coste estimado de producción" (some "es")⟩,
     ⟨uri_registro, schema_additionalProperty, .uri uri_coste⟩]
  (g9, true)

/-- `procesar_csv`: the counter is incremented for every row, the row is
processed inside try/except, and processing always continues; returns the
final graph and the final counter. -/
def procesar_csv (g : Graph) (rows : List Row) : Graph × ℕ :=
  rows.foldl
    (fun acc row =>
      let contador := acc.2 + 1
      ((agregar_registro_agricola acc.1 row contador).1, contador))
    (g, 0)

/- ------------------------------------------------------------------
`schema/enriquecimiento_wikidata.py`
------------------------------------------------------------------ -/

/-- Group 2 of `re.search(r'(.+?)\s*\((.+?)\)', _)`: after the literal
`(`, the lazy `(.+?)` takes at least one character (which must match `.`,
so not a newline) and then the closest closing `)`; a newline before any
viable `)` kills every longer alternative as well. -/
def grp2Aux (acc : List Char) : List Char → Option (List Char)
  | [] => none
  | c :: rest =>
    if c = ')' then some acc.reverse
    else if c = '\n' then none
    else grp2Aux (c :: acc) rest

/-- Entry point of the group-2 match: the first character after `(`. -/
def grp2 : List Char → Option (List Char)
  | [] => none
  | c :: rest => if c = '\n' then none else grp2Aux [c] rest

/-- Backtracking for a fixed start position: the lazy `(.+?)` grows one
character at a time (`acc` is group 1 so far); after it, the greedy-then-
backtracking `\s*` deterministically skips the maximal whitespace run
(shorter runs would still face a whitespace character, never `(`), then
the literal `(` and group 2 must follow. -/
def tryG1 (acc : List Char) : List Char → Option (List Char × List Char)
  | [] => none
  | c :: rest =>
    if c = '\n' then none
    else
      match rest.dropWhile isWsPy with
      | '(' :: after =>
        (match grp2 after with
         | some g2 => some (acc ++ [c], g2)
         | none => tryG1 (acc ++ [c]) rest)
      | _ => tryG1 (acc ++ [c]) rest

/-- `re.search(r'(.+?)\s*\((.+?)\)', _)`: leftmost start position, then
shortest group 1, then shortest group 2; returns `(group 1, group 2)`. -/
def reSearch : List Char → Option (List Char × List Char)
  | [] => none
  | c :: rest =>
    match tryG1 [] (c :: rest) with
    | some r => some r
    | none => reSearch rest

/-- The closed article set of `limpiar_label_sparql`. -/
def articulos_comunes : List String := ["el", "la", "los", "las", "l'", "els", "les"]

/-- `limpiar_label_sparql`: empty guard, keep the part before the first
`/`, article rewriting `"Campello (El)" -> "El Campello"` via the regex
above, then `strip()` and SPARQL escaping of apostrophes. -/
def limpiar_label_sparql (nombre : String) : String :=
  if nombre.data = [] then ""
  else
    let n1 := if nombre.data.any (fun c => c = '/')
              then String.mk (nombre.data.takeWhile (fun c => c ≠ '/'))
              else nombre
    let n2 := match reSearch n1.data with
      | some r =>
        let cuerpo := pyStrip (String.mk r.1)
        let articulo := pyStrip (String.mk r.2)
        if articulos_comunes.contains (pyLower articulo) then
          articulo ++ " " ++ cuerpo
        else cuerpo
      | none => n1
    pyReplaceAll (pyStrip n2) "'" "\\'"

/-- One SPARQL result binding, pre-decoded: the `item` URI is always
present; `coord` is the raw `P625` value text; `poblacion` is modelled as
already numeric (no claim exercises a malformed population); `taxon` is
the `P225` string. -/
structure WDResult where
  item : String
  coord : Option String
  poblacion : Option Int
  taxon : Option String
deriving DecidableEq

/-- State of a `WikidataEnricher`: the graph, the run cache (a dict keyed
by the cache-key string), and a ghost log of the cache keys for which a
network request was actually issued (one entry per HTTP round trip,
successful or not). -/
structure EnrState where
  g : Graph
  cache : List (String × WDResult)
  queries : List String
deriving DecidableEq

/-- Python dict lookup on the cache. -/
def lookupCache (c : List (String × WDResult)) (k : String) : Option WDResult :=
  (c.find? (fun e => e.1 = k)).map (fun e => e.2)

/-- `cache_key = f"{tipo}_{nombre_limpio}"`. -/
def cacheKey (tipo nombre_limpio : String) : String := tipo ++ "_" ++ nombre_limpio

/-- `buscar_entidad`, over a network oracle `net`: `net k = some r` means
the SPARQL endpoint answered 200 with a nonempty binding list whose first
element is `r`; `net k = none` covers empty results, non-200 statuses and
raised exceptions alike — exactly the three source paths that fall through
to `return None` without touching the cache.  Only a successful result is
stored in the cache. -/
def buscar_entidad (net : String → Option WDResult) (st : EnrState)
    (nombre tipo : String) : Option WDResult × EnrState :=
  let nombre_limpio := limpiar_label_sparql nombre
  let k := cacheKey tipo nombre_limpio
  match lookupCache st.cache k with
  | some r => (some r, st)
  | none =>
    if tipo = "municipio" ∨ tipo = "cultivo" then
      match net k with
      | some r =>
        (some r, { st with cache := (k, r) :: st.cache, queries := st.queries ++ [k] })
      | none => (none, { st with queries := st.queries ++ [k] })
    else (none, st)

/-- The geo triples the `if 'Point' in coord' block of
`enriquecer_municipio` adds: the `GeoCoordinates` type triple is added
before `float(lon_lat[0])` is evaluated and the longitude triple before
`float(lon_lat[1])`, so the bare `except: pass` keeps whatever was added
before the failing step. -/
def geoAdds (uri_municipio coord : String) : List Triple :=
  if containsSub coord "Point" then
    let lon_lat := pySplitWs (pyReplaceAll (pyReplaceAll coord "Point(" "") ")" "")
    let geo_uri := uri_municipio ++ "/geo"
    let t0 : Triple := ⟨geo_uri, rdf_type, .uri schema_GeoCoordinates⟩
    match lon_lat with
    | [] => [t0]
    | p0 :: rest =>
      match pyFloat p0 with
      | none => [t0]
      | some lon =>
        let t1 : Triple := ⟨geo_uri, schema_longitude, .litNum lon⟩
        match rest with
        | [] => [t0, t1]
        | p1 :: _ =>
          match pyFloat p1 with
          | none => [t0, t1]
          | some lat =>
            [t0, t1, ⟨geo_uri, schema_latitude, .litNum lat⟩,
             ⟨uri_municipio, schema_geo, .uri geo_uri⟩]
  else []

/-- The triples `enriquecer_municipio` adds on a match `r`: the `sameAs`
equivalence, then the geo block, then the population triple. -/
def muniAdds (uri : String) (r : WDResult) : List Triple :=
  ⟨uri, owl_sameAs, .uri r.item⟩ ::
  ((match r.coord with
    | some c => geoAdds uri c
    | none => []) ++
   (match r.poblacion with
    | some p => [⟨uri, schema_population, .litInt p⟩]
    | none => []))

/-- The triples `enriquecer_cultivo` adds on a match `r`. -/
def cultivoAdds (uri : String) (r : WDResult) : List Triple :=
  ⟨uri, owl_sameAs, .uri r.item⟩ ::
  (match r.taxon with
   | some tx => [⟨uri, schema_additionalProperty, .litStr ("Taxón: " ++ tx) (some "la")⟩]
   | none => [])

/-- Shared shape of `enriquecer_municipio` / `enriquecer_cultivo`: search,
and on a match add the kind-specific triples and report `True`. -/
def enriquecer_con (net : String → Option WDResult) (tipo : String)
    (adds : String → WDResult → List Triple) (st : EnrState)
    (uri nombre : String) : EnrState × Bool :=
  match buscar_entidad net st nombre tipo with
  | (some r, st1) => ({ st1 with g := addAll st1.g (adds uri r) }, true)
  | (none, st1) => (st1, false)

/-- `enriquecer_municipio`. -/
def enriquecer_municipio (net : String → Option WDResult) (st : EnrState)
    (uri nombre : String) : EnrState × Bool :=
  enriquecer_con net "municipio" muniAdds st uri nombre

/-- `enriquecer_cultivo`. -/
def enriquecer_cultivo (net : String → Option WDResult) (st : EnrState)
    (uri nombre : String) : EnrState × Bool :=
  enriquecer_con net "cultivo" cultivoAdds st uri nombre

/-- `g.subjects(p, o)` over the set graph (each subject once, in graph
order). -/
def subjectsOf (g : Graph) (p : String) (o : RDFObject) : List String :=
  (g.filter (fun t => t.pred = p ∧ t.obj = o)).map Triple.subj

/-- `g.objects(s, p)` in graph order. -/
def objectsOf (g : Graph) (s p : String) : List RDFObject :=
  (g.filter (fun t => t.subj = s ∧ t.pred = p)).map Triple.obj

/-- `str()` of a term, as applied to the name literals. -/
def termStr : RDFObject → String
  | .uri s => s
  | .litStr v _ => v
  | .litNum q => toString q.num ++ "/" ++ toString q.den
  | .litInt i => toString i

/-- The municipality scan of `enriquecer_grafo`: subjects carrying
`schema:additionalType "municipio"@es` that have a name, paired with the
first name. -/
def municipiosDe (g : Graph) : List (String × String) :=
  (subjectsOf g schema_additionalType (.litStr "municipio" (some "es"))).filterMap
    (fun s => match objectsOf g s schema_name with
      | [] => none
      | n :: _ => some (s, termStr n))

/-- The crop scan of `enriquecer_grafo`: subjects typed `schema:Product`
that have a name. -/
def cultivosDe (g : Graph) : List (String × String) :=
  (subjectsOf g rdf_type (.uri schema_Product)).filterMap
    (fun s => match objectsOf g s schema_name with
      | [] => none
      | n :: _ => some (s, termStr n))

/-- One bounded enrichment batch (either loop of `enriquecer_grafo`),
counting the entities reported found. -/
def enriquecer_bucle (net : String → Option WDResult) (tipo : String)
    (adds : String → WDResult → List Triple) (st : EnrState)
    (l : List (String × String)) : EnrState × ℕ :=
  l.foldl
    (fun acc p =>
      let r := enriquecer_con net tipo adds acc.1 p.1 p.2
      (r.1, acc.2 + (if r.2 then 1 else 0)))
    (st, 0)

/-- `enriquecer_grafo`: scan municipalities from the input graph, enrich
the first `max_municipios` of them, then scan crops from the *updated*
graph and enrich the first `max_cultivos`; a fresh enricher starts with an
empty cache. -/
def enriquecer_grafo (net : String → Option WDResult) (g : Graph)
    (max_municipios max_cultivos : ℕ) : EnrState × ℕ × ℕ :=
  let st0 : EnrState := ⟨g, [], []⟩
  let lista_m := (municipiosDe g).take max_municipios
  let rm := enriquecer_bucle net "municipio" muniAdds st0 lista_m
  let lista_c := (cultivosDe rm.1.g).take max_cultivos
  let rc := enriquecer_bucle net "cultivo" cultivoAdds rm.1 lista_c
  (rc.1, rm.2, rc.2)

/- ------------------------------------------------------------------
Proof-support definitions.
------------------------------------------------------------------ -/

/-- Upper bound on the triples one row can contribute (the full success
path of `agregar_registro_agricola`); every execution branch adds a subset
of this list. -/
def rowTriples (row : Row) (contador : ℕ) : List Triple :=
  let provincia := row.provincia.getD ""
  let comarca := row.comarca.getD ""
  let municipio := row.municipio.getD ""
  let uri_provincia := crear_uri "provincia" provincia
  let uri_comarca := crear_uri "comarca" comarca
  let uri_municipio := crear_uri "municipio" municipio
  let uri_cultivo := crear_uri "cultivo" (row.grupo_de_cultivo ++ "_" ++ row.cultivo)
  let uri_registro := EXs ++ ("registro/" ++ toString contador)
  let superficie := (convertir_a_float row.superficie_cultivada).getD ⟨0, 1⟩
  let dotacion := (convertir_a_float row.dotacion).getD ⟨0, 1⟩
  let consumo := (convertir_a_float row.consumo_estimado).getD ⟨0, 1⟩
  let coste := (convertir_a_float row.coste_estimado).getD ⟨0, 1⟩
  [Triple.mk uri_provincia rdf_type (.uri schema_Place),
   Triple.mk uri_provincia schema_name (.litStr provincia (some "es")),
   Triple.mk uri_provincia schema_additionalType (.litStr "provincia" (some "es")),
   Triple.mk uri_comarca rdf_type (.uri schema_Place),
   Triple.mk uri_comarca schema_name (.litStr comarca (some "es")),
   Triple.mk uri_comarca schema_additionalType (.litStr "comarca" (some "es")),
   Triple.mk uri_comarca schema_containedInPlace (.uri uri_provincia),
   Triple.mk uri_municipio rdf_type (.uri schema_Place),
   Triple.mk uri_municipio schema_name (.litStr municipio (some "es")),
   Triple.mk uri_municipio schema_additionalType (.litStr "municipio" (some "es")),
   Triple.mk uri_municipio schema_containedInPlace (.uri uri_comarca),
   Triple.mk uri_cultivo rdf_type (.uri schema_Product),
   Triple.mk uri_cultivo schema_name (.litStr row.cultivo (some "es")),
   Triple.mk uri_cultivo schema_category (.litStr row.grupo_de_cultivo (some "es")),
   Triple.mk uri_cultivo schema_location (.uri uri_municipio),
   Triple.mk uri_registro rdf_type (.uri schema_Event),
   Triple.mk uri_registro schema_name
      (.litStr ("Cultivo de " ++ row.cultivo ++ " en " ++ municipio) (some "es")),
   Triple.mk uri_registro schema_location (.uri uri_municipio),
   Triple.mk uri_registro schema_about (.uri uri_cultivo),
   Triple.mk (uri_registro ++ "/superficie") rdf_type (.uri schema_QuantitativeValue),
   Triple.mk (uri_registro ++ "/superficie") schema_value (.litNum superficie),
   Triple.mk (uri_registro ++ "/superficie") schema_unitCode (.litStr "HEC" none),
   Triple.mk (uri_registro ++ "/superficie") schema_name (.litStr "Superficie cultivada" (some "es")),
   Triple.mk uri_registro schema_area (.uri (uri_registro ++ "/superficie")),
   Triple.mk (uri_registro ++ "/dotacion") rdf_type (.uri schema_QuantitativeValue),
   Triple.mk (uri_registro ++ "/dotacion") schema_value (.litNum dotacion),
   Triple.mk (uri_registro ++ "/dotacion") schema_unitCode (.litStr "MTQ" none),
   Triple.mk (uri_registro ++ "/dotacion") schema_name (.litStr "Dotación de agua" (some "es")),
   Triple.mk uri_registro schema_additionalProperty (.uri (uri_registro ++ "/dotacion")),
   Triple.mk (uri_registro ++ "/consumo") rdf_type (.uri schema_QuantitativeValue),
   Triple.mk (uri_registro ++ "/consumo") schema_value (.litNum consumo),
   Triple.mk (uri_registro ++ "/consumo") schema_unitCode (.litStr "MTQ" none),
   Triple.mk (uri_registro ++ "/consumo") schema_name (.litStr "Consumo estimado de agua" (some "es")),
   Triple.mk uri_registro schema_additionalProperty (.uri (uri_registro ++ "/consumo")),
   Triple.mk (uri_registro ++ "/coste") rdf_type (.uri schema_MonetaryAmount),
   Triple.mk (uri_registro ++ "/coste") schema_value (.litNum coste),
   Triple.mk (uri_registro ++ "/coste") schema_currency (.litStr "EUR" none),
   Triple.mk (uri_registro ++ "/coste") schema_name (.litStr "Coste estimado de producción" (some "es")),
   Triple.mk uri_registro schema_additionalProperty (.uri (uri_registro ++ "/coste"))]

/-- `h` extends `g` by appended triples all satisfying `P`. -/
def ExtendsBy (g h : Graph) (P : Triple → Prop) : Prop :=
  ∃ E, h = g ++ E ∧ ∀ t ∈ E, P t

/-- Character of a generated URI right after the namespace part (index 31,
the length of `EXs`); distinguishes the three place kinds. -/
def uriHead (u : String) : Option Char := u.data[31]?

/-- Every cached value is the network's answer at that key (keys are
cached only on a successful response). -/
def CacheOK (net : String → Option WDResult) (cache : List (String × WDResult)) : Prop :=
  ∀ k r, lookupCache cache k = some r → net k = some r

/-- Invariant for the query log of one run, at a fixed key whose network
answer is a match: at most one query was issued for the key, and once one
was issued the key is cached. -/
def QueriesOK (key : String) (st : EnrState) : Prop :=
  st.queries.count key ≤ 1 ∧
  (st.queries.count key = 1 → (lookupCache st.cache key).isSome = true)

/-- Triples the enrichment pass may add: none of them carries the
predicates its entity scans look at (`additionalType`, `name`), and its
`rdf:type` triples never type a `schema:Product`. -/
def ScanInerte (t : Triple) : Prop :=
  t.pred ≠ schema_additionalType ∧ t.pred ≠ schema_name ∧
  (t.pred = rdf_type → t.obj ≠ .uri schema_Product)

-- Concrete inputs used by counterexamples and witnesses.

/-- The scenario row of the specification. -/
def rowEscenario : Row :=
  ⟨some "VALENCIA", some "Horta Nord", some "L'Horta", "Cítricos", "Naranjo",
   "10,5", "1200,0", "12600,0", "5000,0"⟩

/-- A row whose province name is blank (empty string). -/
def rowProvinciaBlanca : Row :=
  ⟨some "", some "Horta Nord", some "Alboraia", "Cítricos", "Naranjo",
   "10,5", "1200,0", "12600,0", "5000,0"⟩

/-- A row whose area field is not a number. -/
def rowNumeroMalformado : Row :=
  ⟨some "VALENCIA", some "Horta Nord", some "Alboraia", "Cítricos", "Naranjo",
   "abc", "1200,0", "12600,0", "5000,0"⟩

/-- Two rows naming one municipality under two different regions. -/
def rowDosComarcas1 : Row :=
  ⟨some "VALENCIA", some "Comarca Uno", some "Miramar", "Cítricos", "Naranjo",
   "1,0", "1,0", "1,0", "1,0"⟩

/-- Second row of the two-region pair. -/
def rowDosComarcas2 : Row :=
  ⟨some "VALENCIA", some "Comarca Dos", some "Miramar", "Cítricos", "Naranjo",
   "1,0", "1,0", "1,0", "1,0"⟩

/-- A graph holding two municipality entities that share one name. -/
def grafoDosMunicipios : Graph :=
  [⟨EXs ++ "municipio/xirivella", schema_additionalType, .litStr "municipio" (some "es")⟩,
   ⟨EXs ++ "municipio/xirivella", schema_name, .litStr "Xirivella" (some "es")⟩,
   ⟨EXs ++ "municipio/xirivella_b", schema_additionalType, .litStr "municipio" (some "es")⟩,
   ⟨EXs ++ "municipio/xirivella_b", schema_name, .litStr "Xirivella" (some "es")⟩]

/-- A network oracle that never finds anything. -/
def netNone : String → Option WDResult := fun _ => none

/-- A network oracle that always returns a bare match. -/
def netQ1 : String → Option WDResult :=
  fun _ => some ⟨"http://www.wikidata.org/entity/Q1", none, none, none⟩

/-- A network oracle whose match carries an unparsable coordinate text. -/
def netPuntoMalo : String → Option WDResult :=
  fun _ => some ⟨"http://www.wikidata.org/entity/Q2", some "Point(abc def)", none, none⟩

/-- A network oracle whose match carries a coordinate whose first token
parses as a float but whose second does not: the longitude triple is
added before the failing second `float` call. -/
def netPuntoMalo2 : String → Option WDResult :=
  fun _ => some ⟨"http://www.wikidata.org/entity/Q2", some "Point(1.5 xyz)", none, none⟩

/- ------------------------------------------------------------------
Store lemmas.
------------------------------------------------------------------ -/

theorem mem_add {g : Graph} {t u : Triple} : t ∈ add g u ↔ t ∈ g ∨ t = u := by
  unfold add
  by_cases h : u ∈ g
  · simp only [if_pos h]
    constructor
    · exact Or.inl
    · rintro (ht | rfl)
      · exact ht
      · exact h
  · simp [if_neg h, List.mem_append]

theorem add_eq_of_mem {g : Graph} {u : Triple} (h : u ∈ g) : add g u = g := by
  simp [add, h]

theorem addAll_nil (g : Graph) : addAll g [] = g := rfl

theorem addAll_cons (g : Graph) (u : Triple) (l : List Triple) :
    addAll g (u :: l) = addAll (add g u) l := rfl

theorem mem_addAll {t : Triple} :
    ∀ (l : List Triple) (g : Graph), t ∈ addAll g l ↔ t ∈ g ∨ t ∈ l := by
  intro l
  induction l with
  | nil => intro g; simp [addAll]
  | cons u l ih =>
    intro g
    rw [addAll_cons, ih, mem_add]
    simp only [List.mem_cons]
    tauto

theorem addAll_eq_of_subset {g : Graph} {l : List Triple}
    (h : ∀ t ∈ l, t ∈ g) : addAll g l = g := by
  induction l with
  | nil => rfl
  | cons u l ih =>
    rw [addAll_cons, add_eq_of_mem (h u (by simp))]
    exact ih (fun t ht => h t (by simp [ht]))

theorem extendsBy_refl {g : Graph} {P : Triple → Prop} : ExtendsBy g g P :=
  ⟨[], by simp, by simp⟩

theorem extendsBy_addAll {g : Graph} {l : List Triple} {P : Triple → Prop}
    (h : ∀ t ∈ l, P t) : ExtendsBy g (addAll g l) P := by
  induction l generalizing g with
  | nil => exact extendsBy_refl
  | cons u l ih =>
    rw [addAll_cons]
    by_cases hu : u ∈ g
    · rw [add_eq_of_mem hu]
      exact ih (fun t ht => h t (by simp [ht]))
    · obtain ⟨E, hE, hP⟩ := ih (g := add g u) (fun t ht => h t (by simp [ht]))
      refine ⟨u :: E, ?_, ?_⟩
      · rw [hE]; simp [add, hu]
      · intro t ht
        rcases List.mem_cons.1 ht with rfl | ht
        · exact h t (by simp)
        · exact hP t ht

theorem extendsBy_trans {g h k : Graph} {P : Triple → Prop}
    (h1 : ExtendsBy g h P) (h2 : ExtendsBy h k P) : ExtendsBy g k P := by
  obtain ⟨E1, rfl, hP1⟩ := h1
  obtain ⟨E2, rfl, hP2⟩ := h2
  refine ⟨E1 ++ E2, by simp, ?_⟩
  intro t ht
  rcases List.mem_append.1 ht with h | h
  · exact hP1 t h
  · exact hP2 t h

theorem extendsBy_mem {g h : Graph} {P : Triple → Prop}
    (he : ExtendsBy g h P) {t : Triple} (ht : t ∈ g) : t ∈ h := by
  obtain ⟨E, rfl, -⟩ := he
  exact List.mem_append_left _ ht

theorem extendsBy_mem_of {g h : Graph} {P : Triple → Prop}
    (he : ExtendsBy g h P) {t : Triple} (ht : t ∈ h) : t ∈ g ∨ P t := by
  obtain ⟨E, rfl, hP⟩ := he
  rcases List.mem_append.1 ht with h | h
  · exact Or.inl h
  · exact Or.inr (hP t h)

theorem extendsBy_addAll_trans {g h : Graph} {l : List Triple} {P : Triple → Prop}
    (h1 : ∀ t ∈ l, P t) (h2 : ExtendsBy (addAll g l) h P) : ExtendsBy g h P :=
  extendsBy_trans (extendsBy_addAll h1) h2

set_option maxHeartbeats 3200000 in
/-- Master characterization: every branch of `agregar_registro_agricola`
only appends triples drawn from `rowTriples`. -/
theorem agregar_registro_extends (g : Graph) (row : Row) (c : ℕ) :
    ExtendsBy g (agregar_registro_agricola g row c).1 (fun t => t ∈ rowTriples row c) := by
  rcases hp : row.provincia with - | provincia
  · simp only [agregar_registro_agricola, hp]
    exact extendsBy_refl
  rcases hc : row.comarca with - | comarca
  · simp only [agregar_registro_agricola, hp, hc, agregar_lugar]
    refine extendsBy_addAll_trans ?_ extendsBy_refl
    intro t ht
    fin_cases ht <;> simp [rowTriples, hp, hc]
  rcases hm : row.municipio with - | municipio
  · simp only [agregar_registro_agricola, hp, hc, hm, agregar_lugar]
    refine extendsBy_addAll_trans ?_ (extendsBy_addAll_trans ?_ extendsBy_refl) <;>
      (intro t ht; fin_cases ht <;> simp [rowTriples, hp, hc, hm])
  rcases hs : convertir_a_float row.superficie_cultivada with - | superficie
  · simp only [agregar_registro_agricola, hp, hc, hm, hs, agregar_lugar, agregar_cultivo]
    refine extendsBy_addAll_trans ?_ (extendsBy_addAll_trans ?_ (extendsBy_addAll_trans ?_
      (extendsBy_addAll_trans ?_ (extendsBy_addAll_trans ?_ extendsBy_refl)))) <;>
      (intro t ht; fin_cases ht <;> simp [rowTriples, hp, hc, hm])
  rcases hd : convertir_a_float row.dotacion with - | dotacion
  · simp only [agregar_registro_agricola, hp, hc, hm, hs, hd, agregar_lugar, agregar_cultivo]
    refine extendsBy_addAll_trans ?_ (extendsBy_addAll_trans ?_ (extendsBy_addAll_trans ?_
      (extendsBy_addAll_trans ?_ (extendsBy_addAll_trans ?_ (extendsBy_addAll_trans ?_
        extendsBy_refl))))) <;>
      (intro t ht; fin_cases ht <;> simp [rowTriples, hp, hc, hm, hs])
  rcases hw : convertir_a_float row.consumo_estimado with - | consumo
  · simp only [agregar_registro_agricola, hp, hc, hm, hs, hd, hw, agregar_lugar, agregar_cultivo]
    refine extendsBy_addAll_trans ?_ (extendsBy_addAll_trans ?_ (extendsBy_addAll_trans ?_
      (extendsBy_addAll_trans ?_ (extendsBy_addAll_trans ?_ (extendsBy_addAll_trans ?_
        (extendsBy_addAll_trans ?_ extendsBy_refl)))))) <;>
      (intro t ht; fin_cases ht <;> simp [rowTriples, hp, hc, hm, hs, hd])
  rcases hk : convertir_a_float row.coste_estimado with - | coste
  · simp only [agregar_registro_agricola, hp, hc, hm, hs, hd, hw, hk, agregar_lugar,
      agregar_cultivo]
    refine extendsBy_addAll_trans ?_ (extendsBy_addAll_trans ?_ (extendsBy_addAll_trans ?_
      (extendsBy_addAll_trans ?_ (extendsBy_addAll_trans ?_ (extendsBy_addAll_trans ?_
        (extendsBy_addAll_trans ?_ (extendsBy_addAll_trans ?_ extendsBy_refl))))))) <;>
      (intro t ht; fin_cases ht <;> simp [rowTriples, hp, hc, hm, hs, hd, hw])
  · simp only [agregar_registro_agricola, hp, hc, hm, hs, hd, hw, hk, agregar_lugar,
      agregar_cultivo]
    refine extendsBy_addAll_trans ?_ (extendsBy_addAll_trans ?_ (extendsBy_addAll_trans ?_
      (extendsBy_addAll_trans ?_ (extendsBy_addAll_trans ?_ (extendsBy_addAll_trans ?_
        (extendsBy_addAll_trans ?_ (extendsBy_addAll_trans ?_ (extendsBy_addAll_trans ?_
          extendsBy_refl)))))))) <;>
      (intro t ht; fin_cases ht <;> simp [rowTriples, hp, hc, hm, hs, hd, hw, hk])

theorem procesar_foldl_pred (P : Triple → Prop) :
    ∀ (rows : List Row) (g : Graph) (n : ℕ),
      (∀ t ∈ g, P t) →
      (∀ row ∈ rows, ∀ (c : ℕ), ∀ t ∈ rowTriples row c, P t) →
      ∀ t ∈ (rows.foldl (fun acc row =>
          let contador := acc.2 + 1
          ((agregar_registro_agricola acc.1 row contador).1, contador)) (g, n)).1, P t := by
  intro rows
  induction rows with
  | nil => intro g n hg _ t ht; exact hg t ht
  | cons row rows ih =>
    intro g n hg hrow t ht
    rw [List.foldl_cons] at ht
    refine ih _ _ ?_ (fun r hr => hrow r (by simp [hr])) t ht
    intro u hu
    rcases extendsBy_mem_of (agregar_registro_extends g row (n + 1)) hu with h | h
    · exact hg u h
    · exact hrow row (by simp) (n + 1) u h

/-- Every triple of the generated graph is an initial triple or belongs to
the `rowTriples` of one of the rows. -/
theorem procesar_pred (P : Triple → Prop) {g : Graph} {rows : List Row}
    (hg : ∀ t ∈ g, P t)
    (hrow : ∀ row ∈ rows, ∀ (c : ℕ), ∀ t ∈ rowTriples row c, P t) :
    ∀ t ∈ (procesar_csv g rows).1, P t :=
  procesar_foldl_pred P rows g 0 hg hrow

theorem procesar_foldl_mono {t : Triple} :
    ∀ (rows : List Row) (g : Graph) (n : ℕ), t ∈ g →
      t ∈ (rows.foldl (fun acc row =>
          let contador := acc.2 + 1
          ((agregar_registro_agricola acc.1 row contador).1, contador)) (g, n)).1 := by
  intro rows
  induction rows with
  | nil => intro g n hg; exact hg
  | cons row rows ih =>
    intro g n hg
    rw [List.foldl_cons]
    exact ih _ _ (extendsBy_mem (agregar_registro_extends g row (n + 1)) hg)

/-- The graph only grows while rows are processed. -/
theorem procesar_mono {g : Graph} {rows : List Row} {t : Triple} (h : t ∈ g) :
    t ∈ (procesar_csv g rows).1 :=
  procesar_foldl_mono rows g 0 h

theorem procesar_foldl_count :
    ∀ (rows : List Row) (g : Graph) (n : ℕ),
      (rows.foldl (fun acc row =>
          let contador := acc.2 + 1
          ((agregar_registro_agricola acc.1 row contador).1, contador)) (g, n)).2
        = n + rows.length := by
  intro rows
  induction rows with
  | nil => intro g n; simp
  | cons row rows ih =>
    intro g n
    rw [List.foldl_cons, ih]
    simp
    omega

/-- The row counter counts every row, failed ones included: processing
always continues past an error. -/
theorem procesar_count (g : Graph) (rows : List Row) :
    (procesar_csv g rows).2 = rows.length :=
  by simpa using procesar_foldl_count rows g 0

set_option maxHeartbeats 1600000 in
/-- The only containment triples a row can contribute link a region to a
province or a municipality to a region. -/
theorem rowTriples_contained {row : Row} {c : ℕ} {t : Triple}
    (ht : t ∈ rowTriples row c) (h : t.pred = schema_containedInPlace) :
    (∃ n m, t.subj = crear_uri "comarca" n ∧ t.obj = .uri (crear_uri "provincia" m)) ∨
    (∃ n m, t.subj = crear_uri "municipio" n ∧ t.obj = .uri (crear_uri "comarca" m)) := by
  simp only [rowTriples] at ht
  fin_cases ht <;>
    first
      | exact Or.inl ⟨_, _, rfl, rfl⟩
      | exact Or.inr ⟨_, _, rfl, rfl⟩
      | (simp [rdf_type, owl_sameAs, schema_Place, schema_name, schema_additionalType, schema_containedInPlace, schema_Product, schema_category, schema_location, schema_Event, schema_about, schema_QuantitativeValue, schema_value, schema_unitCode, schema_area, schema_additionalProperty, schema_MonetaryAmount, schema_currency, schema_GeoCoordinates, schema_longitude, schema_latitude, schema_geo, schema_population] at h; done)

set_option maxHeartbeats 1600000 in
/-- The only municipality-kind triple a row can contribute names the
municipality URI derived from the row's municipality field. -/
theorem rowTriples_addtype {row : Row} {c : ℕ} {t : Triple}
    (ht : t ∈ rowTriples row c) (h1 : t.pred = schema_additionalType)
    (h2 : t.obj = .litStr "municipio" (some "es")) :
    t.subj = crear_uri "municipio" (row.municipio.getD "") := by
  simp only [rowTriples] at ht
  fin_cases ht <;>
    first
      | rfl
      | (refine absurd h1 ?_; simp [rdf_type, owl_sameAs, schema_Place, schema_name, schema_additionalType, schema_containedInPlace, schema_Product, schema_category, schema_location, schema_Event, schema_about, schema_QuantitativeValue, schema_value, schema_unitCode, schema_area, schema_additionalProperty, schema_MonetaryAmount, schema_currency, schema_GeoCoordinates, schema_longitude, schema_latitude, schema_geo, schema_population]; done)
      | (refine absurd h2 ?_; simp; done)

theorem uriHead_provincia (n : String) :
    uriHead (crear_uri "provincia" n) = some 'p' := by
  unfold uriHead crear_uri EXs
  rw [String.data_append,
    List.getElem?_append_right (by decide :
      ("http://example.org/agricultura/" : String).data.length ≤ 31)]
  have hl : ("http://example.org/agricultura/" : String).data.length = 31 := by decide
  rw [hl]
  rw [show ("provincia" ++ "/" ++ limpiar_texto n : String) =
        "provincia/" ++ limpiar_texto n by simp [String.append_assoc]]
  rw [String.data_append,
    List.getElem?_append_left (by decide : 31 - 31 < ("provincia/" : String).data.length)]
  decide

theorem uriHead_comarca (n : String) :
    uriHead (crear_uri "comarca" n) = some 'c' := by
  unfold uriHead crear_uri EXs
  rw [String.data_append,
    List.getElem?_append_right (by decide :
      ("http://example.org/agricultura/" : String).data.length ≤ 31)]
  have hl : ("http://example.org/agricultura/" : String).data.length = 31 := by decide
  rw [hl]
  rw [show ("comarca" ++ "/" ++ limpiar_texto n : String) =
        "comarca/" ++ limpiar_texto n by simp [String.append_assoc]]
  rw [String.data_append,
    List.getElem?_append_left (by decide : 31 - 31 < ("comarca/" : String).data.length)]
  decide

theorem uriHead_municipio (n : String) :
    uriHead (crear_uri "municipio" n) = some 'm' := by
  unfold uriHead crear_uri EXs
  rw [String.data_append,
    List.getElem?_append_right (by decide :
      ("http://example.org/agricultura/" : String).data.length ≤ 31)]
  have hl : ("http://example.org/agricultura/" : String).data.length = 31 := by decide
  rw [hl]
  rw [show ("municipio" ++ "/" ++ limpiar_texto n : String) =
        "municipio/" ++ limpiar_texto n by simp [String.append_assoc]]
  rw [String.data_append,
    List.getElem?_append_left (by decide : 31 - 31 < ("municipio/" : String).data.length)]
  decide

theorem crear_uri_comarca_ne_provincia (a b : String) :
    crear_uri "comarca" a ≠ crear_uri "provincia" b := by
  intro h
  have h2 := congrArg uriHead h
  rw [uriHead_comarca, uriHead_provincia] at h2
  exact absurd h2 (by decide)

theorem crear_uri_municipio_ne_provincia (a b : String) :
    crear_uri "municipio" a ≠ crear_uri "provincia" b := by
  intro h
  have h2 := congrArg uriHead h
  rw [uriHead_municipio, uriHead_provincia] at h2
  exact absurd h2 (by decide)

theorem crear_uri_municipio_ne_comarca (a b : String) :
    crear_uri "municipio" a ≠ crear_uri "comarca" b := by
  intro h
  have h2 := congrArg uriHead h
  rw [uriHead_municipio, uriHead_comarca] at h2
  exact absurd h2 (by decide)

/-- Shape of every containment edge in a generated graph. -/
theorem contained_shape (rows : List Row) {a b : String}
    (h : (Triple.mk a schema_containedInPlace (.uri b)) ∈ (procesar_csv [] rows).1) :
    (∃ n m, a = crear_uri "comarca" n ∧ b = crear_uri "provincia" m) ∨
    (∃ n m, a = crear_uri "municipio" n ∧ b = crear_uri "comarca" m) := by
  have hall := @procesar_pred
    (fun t => t.pred = schema_containedInPlace →
      (∃ n m, t.subj = crear_uri "comarca" n ∧ t.obj = .uri (crear_uri "provincia" m)) ∨
      (∃ n m, t.subj = crear_uri "municipio" n ∧ t.obj = .uri (crear_uri "comarca" m)))
    [] rows (by simp)
    (fun row _ c t ht hpred => rowTriples_contained ht hpred)
  have := hall _ h rfl
  rcases this with ⟨n, m, h1, h2⟩ | ⟨n, m, h1, h2⟩
  · exact Or.inl ⟨n, m, h1, by injection h2⟩
  · exact Or.inr ⟨n, m, h1, by injection h2⟩

/-- C9 (amended): for every generated graph the containment relation is
acyclic — no Place is its own strict `containedInPlace`-ancestor.  (The
relation is layered municipality → region → province, though not
single-parented.) -/
theorem jerarquia_aciclica (rows : List Row) (x : String) :
    ¬ Relation.TransGen
      (fun a b => (Triple.mk a schema_containedInPlace (.uri b)) ∈ (procesar_csv [] rows).1)
      x x := by
  intro hcyc
  rcases Relation.TransGen.head'_iff.1 hcyc with ⟨z, hxz, hzx⟩
  rcases contained_shape rows hxz with ⟨n, m, hx, hz⟩ | ⟨n, m, hx, hz⟩
  · -- x is a region URI and z a province URI: no edge leaves a province
    rcases Relation.ReflTransGen.cases_head hzx with rfl | ⟨w, hzw, -⟩
    · exact crear_uri_comarca_ne_provincia n m (hx.symm.trans hz)
    · rcases contained_shape rows hzw with ⟨n', m', hz', -⟩ | ⟨n', m', hz', -⟩
      · exact crear_uri_comarca_ne_provincia n' m (hz'.symm.trans hz)
      · exact crear_uri_municipio_ne_provincia n' m (hz'.symm.trans hz)
  · -- x is a municipality URI: no edge enters a municipality
    rcases Relation.ReflTransGen.cases_tail hzx with heq | ⟨w, -, hwx⟩
    · exact crear_uri_municipio_ne_comarca n m (hx.symm.trans (heq ▸ hz))
    · rcases contained_shape rows hwx with ⟨n', m', -, hx'⟩ | ⟨n', m', -, hx'⟩
      · exact crear_uri_municipio_ne_provincia n m' (hx.symm.trans hx')
      · exact crear_uri_municipio_ne_comarca n m' (hx.symm.trans hx')

theorem mem_subjectsOf {g : Graph} {p : String} {o : RDFObject} {x : String} :
    x ∈ subjectsOf g p o ↔ ∃ t ∈ g, t.pred = p ∧ t.obj = o ∧ t.subj = x := by
  simp only [subjectsOf, List.mem_map, List.mem_filter, decide_eq_true_eq]
  constructor
  · rintro ⟨t, ⟨ht, hp, ho⟩, rfl⟩
    exact ⟨t, ht, hp, ho, rfl⟩
  · rintro ⟨t, ht, hp, ho, rfl⟩
    exact ⟨t, ⟨ht, hp, ho⟩, rfl⟩

theorem dedup_eq_single {α : Type} [DecidableEq α] {u : α} :
    ∀ {l : List α}, l ≠ [] → (∀ x ∈ l, x = u) → l.dedup = [u] := by
  intro l
  induction l with
  | nil => intro h; exact absurd rfl h
  | cons a t ih =>
    intro _ hall
    have ha : a = u := hall a (by simp)
    subst ha
    rcases eq_or_ne t [] with rfl | hne
    · simp
    · have ht := ih hne (fun x hx => hall x (by simp [hx]))
      have hmem : a ∈ t := by
        rcases t with - | ⟨b, t'⟩
        · exact absurd rfl hne
        · have : b = a := (hall b (by simp)).trans (hall a (by simp)).symm
          simp [this]
      rw [List.dedup_cons_of_mem hmem, ht]

/-- With all three hierarchy names present, the municipality-kind triple is
added whatever happens to the numeric fields. -/
theorem muni_triple_mem (g : Graph) (row : Row) (c : ℕ) {p q m : String}
    (hp : row.provincia = some p) (hc : row.comarca = some q)
    (hm : row.municipio = some m) :
    Triple.mk (crear_uri "municipio" m) schema_additionalType
        (.litStr "municipio" (some "es"))
      ∈ (agregar_registro_agricola g row c).1 := by
  simp only [agregar_registro_agricola, hp, hc, hm, agregar_lugar, agregar_cultivo]
  rcases hs : convertir_a_float row.superficie_cultivada with - | s <;>
  rcases hd : convertir_a_float row.dotacion with - | d <;>
  rcases hw : convertir_a_float row.consumo_estimado with - | w <;>
  rcases hk : convertir_a_float row.coste_estimado with - | k <;>
    simp [mem_addAll]

theorem crear_uri_congr {tipo a b : String} (h : limpiar_texto a = limpiar_texto b) :
    crear_uri tipo a = crear_uri tipo b := by
  unfold crear_uri
  rw [h]

/-- C4: over any row list in which every row names the same municipality
(same normalized name) under the same region, the generated graph holds
exactly one municipality Place subject. -/
theorem dedup_municipio (rows : List Row) (hne : rows ≠ [])
    (hnames : ∀ r ∈ rows, ∃ p q m, r.provincia = some p ∧ r.comarca = some q ∧
      r.municipio = some m)
    (m0 c0 : String)
    (hm : ∀ r ∈ rows, limpiar_texto (r.municipio.getD "") = limpiar_texto m0)
    (hc : ∀ r ∈ rows, limpiar_texto (r.comarca.getD "") = limpiar_texto c0) :
    (subjectsOf (procesar_csv [] rows).1 schema_additionalType
        (.litStr "municipio" (some "es"))).dedup = [crear_uri "municipio" m0] := by
  have hall : ∀ t ∈ (procesar_csv [] rows).1,
      (t.pred = schema_additionalType ∧ t.obj = .litStr "municipio" (some "es")) →
        t.subj = crear_uri "municipio" m0 := by
    refine procesar_pred _ (by simp) ?_
    intro row hrow c t ht hto
    rw [rowTriples_addtype ht hto.1 hto.2]
    exact crear_uri_congr (hm row hrow)
  refine dedup_eq_single ?_ ?_
  · -- the first row contributes the municipality triple
    rcases rows with - | ⟨r, rest⟩
    · exact absurd rfl hne
    obtain ⟨p, q, m, hp, hq, hmm⟩ := hnames r (by simp)
    have h1 : Triple.mk (crear_uri "municipio" m) schema_additionalType
        (.litStr "municipio" (some "es")) ∈ (agregar_registro_agricola [] r 1).1 :=
      muni_triple_mem [] r 1 hp hq hmm
    have h2 : Triple.mk (crear_uri "municipio" m) schema_additionalType
        (.litStr "municipio" (some "es")) ∈ (procesar_csv [] (r :: rest)).1 := by
      show _ ∈ ((r :: rest).foldl _ ([], 0)).1
      rw [List.foldl_cons]
      exact procesar_foldl_mono rest _ 1 h1
    intro hempty
    have hx : crear_uri "municipio" m ∈ subjectsOf (procesar_csv [] (r :: rest)).1
        schema_additionalType (.litStr "municipio" (some "es")) :=
      mem_subjectsOf.2 ⟨_, h2, rfl, rfl, rfl⟩
    rw [hempty] at hx
    exact absurd hx (List.not_mem_nil _)
  · intro x hx
    obtain ⟨t, ht, hpred, hobj, hsubj⟩ := mem_subjectsOf.1 hx
    rw [← hsubj]
    exact hall t ht ⟨hpred, hobj⟩

/-- C4 witness: two concrete rows, different raw municipality spellings
with one normalization. -/
theorem dedup_municipio_witness :
    (subjectsOf (procesar_csv []
        [⟨some "VALENCIA", some "Horta Nord", some "Alboraia", "G", "X", "1,0", "1,0", "1,0", "1,0"⟩,
         ⟨some "VALENCIA", some "Horta Nord", some "ALBORAIA", "G", "Y", "2,0", "2,0", "2,0", "2,0"⟩]).1
        schema_additionalType (.litStr "municipio" (some "es"))).dedup
      = [crear_uri "municipio" "Alboraia"] :=
  dedup_municipio _ (by simp)
    (by intro r hr; fin_cases hr <;> exact ⟨_, _, _, rfl, rfl, rfl⟩)
    "Alboraia" "Horta Nord"
    (by intro r hr; fin_cases hr <;> decide)
    (by intro r hr; fin_cases hr <;> decide)

/-- C2 counterexample: a row with a blank (empty-string) province name is
not rejected — it is processed to the end (`true`) and a Place fact with
the empty-derived identifier is in the graph, against the claim that such
a row is skipped with no Place fact added. -/
theorem fila_nombre_vacio_no_rechazada :
    (agregar_registro_agricola [] rowProvinciaBlanca 1).2 = true ∧
    Triple.mk (crear_uri "provincia" "") rdf_type (.uri schema_Place)
      ∈ (agregar_registro_agricola [] rowProvinciaBlanca 1).1 ∧
    Triple.mk (crear_uri "municipio" "Alboraia") rdf_type (.uri schema_Place)
      ∈ (procesar_csv [] [rowProvinciaBlanca]).1 := by
  refine ⟨by decide, by decide, by decide⟩

/-- C2 (amended): a `None` hierarchy name aborts the row at its first use
(a missing province aborts before any triple, a missing region only after
the province triples are already in), while a blank name is not rejected at
all: the row is processed completely and a Place node with the
empty-derived identifier is created. -/
theorem politica_nombres_faltantes :
    (∀ (g : Graph) (row : Row) (c : ℕ), row.provincia = none →
        agregar_registro_agricola g row c = (g, false)) ∧
    (∀ (g : Graph) (row : Row) (c : ℕ) (p : String), row.provincia = some p →
        row.comarca = none →
        agregar_registro_agricola g row c = ((agregar_lugar g p "provincia" none).1, false)) ∧
    (∀ (g : Graph) (row : Row) (c : ℕ) (q m : String) (s d w k : Frac),
        row.provincia = some "" → row.comarca = some q → row.municipio = some m →
        convertir_a_float row.superficie_cultivada = some s →
        convertir_a_float row.dotacion = some d →
        convertir_a_float row.consumo_estimado = some w →
        convertir_a_float row.coste_estimado = some k →
        (agregar_registro_agricola g row c).2 = true ∧
        Triple.mk (crear_uri "provincia" "") rdf_type (.uri schema_Place)
          ∈ (agregar_registro_agricola g row c).1) := by
  refine ⟨?_, ?_, ?_⟩
  · intro g row c hp
    simp only [agregar_registro_agricola, hp]
  · intro g row c p hp hc
    simp only [agregar_registro_agricola, hp, hc]
  · intro g row c q m s d w k hp hc hm hs hd hw hk
    constructor
    · simp only [agregar_registro_agricola, hp, hc, hm, hs, hd, hw, hk]
    · simp only [agregar_registro_agricola, hp, hc, hm, hs, hd, hw, hk,
        agregar_lugar, agregar_cultivo]
      simp [mem_addAll]

/-- C2 witness: the amended policy at concrete rows. -/
theorem politica_nombres_faltantes_witness :
    agregar_registro_agricola []
        ⟨none, some "Horta Nord", some "Alboraia", "G", "X", "1,0", "1,0", "1,0", "1,0"⟩ 1
      = ([], false) ∧
    (agregar_registro_agricola [] rowProvinciaBlanca 1).2 = true ∧
    Triple.mk (crear_uri "provincia" "") rdf_type (.uri schema_Place)
      ∈ (agregar_registro_agricola [] rowProvinciaBlanca 1).1 := by
  refine ⟨politica_nombres_faltantes.1 [] _ 1 rfl, ?_, ?_⟩
  · exact (politica_nombres_faltantes.2.2 [] rowProvinciaBlanca 1 "Horta Nord" "Alboraia"
      ⟨21, 2⟩ ⟨1200, 1⟩ ⟨12600, 1⟩ ⟨5000, 1⟩ rfl rfl rfl (by decide) (by decide)
      (by decide) (by decide)).1
  · exact (politica_nombres_faltantes.2.2 [] rowProvinciaBlanca 1 "Horta Nord" "Alboraia"
      ⟨21, 2⟩ ⟨1200, 1⟩ ⟨12600, 1⟩ ⟨5000, 1⟩ rfl rfl rfl (by decide) (by decide)
      (by decide) (by decide)).2

/-- C3 counterexample: a row whose area field does not parse still leaves
facts in the graph (its Event triple among others), against the claim that
a failed row contributes no facts. -/
theorem fila_numero_malformado_deja_hechos :
    convertir_a_float rowNumeroMalformado.superficie_cultivada = none ∧
    Triple.mk (EXs ++ ("registro/" ++ toString 1)) rdf_type (.uri schema_Event)
      ∈ (procesar_csv [] [rowNumeroMalformado]).1 := by
  refine ⟨by decide, by decide⟩

/-- C3 (amended): a malformed numeric field fails the row and the run
continues with every later row (the counter counts them all), but the row
is not erased: the triples added before the failing conversion — here the
Event triple of the record — stay in the graph. -/
theorem error_numerico_continua :
    ∀ (g : Graph) (row : Row) (c : ℕ) (p q m : String),
      row.provincia = some p → row.comarca = some q → row.municipio = some m →
      convertir_a_float row.superficie_cultivada = none →
      (agregar_registro_agricola g row c).2 = false ∧
      Triple.mk (EXs ++ ("registro/" ++ toString c)) rdf_type (.uri schema_Event)
        ∈ (agregar_registro_agricola g row c).1 ∧
      ∀ (rest : List Row), (procesar_csv g (row :: rest)).2 = rest.length + 1 := by
  intro g row c p q m hp hc hm hs
  refine ⟨?_, ?_, ?_⟩
  · simp only [agregar_registro_agricola, hp, hc, hm, hs]
  · simp only [agregar_registro_agricola, hp, hc, hm, hs, agregar_lugar, agregar_cultivo]
    simp [mem_addAll]
  · intro rest
    rw [procesar_count]
    simp

/-- C3 witness: the amended behaviour at the concrete malformed row. -/
theorem error_numerico_continua_witness :
    (agregar_registro_agricola [] rowNumeroMalformado 1).2 = false ∧
    Triple.mk (EXs ++ ("registro/" ++ toString 1)) rdf_type (.uri schema_Event)
      ∈ (agregar_registro_agricola [] rowNumeroMalformado 1).1 ∧
    ∀ (rest : List Row), (procesar_csv [] (rowNumeroMalformado :: rest)).2 = rest.length + 1 :=
  error_numerico_continua [] rowNumeroMalformado 1 "VALENCIA" "Horta Nord" "Alboraia"
    rfl rfl rfl (by decide)

/-- C5 counterexample: the scenario row's municipality identifier is not
`l'Horta` — the apostrophe is dropped by the normalizer, and no Place with
that identifier exists in the generated graph. -/
theorem escenario_identificador_no_apostrofe :
    limpiar_texto "L'Horta" ≠ "l'Horta" ∧
    Triple.mk (EXs ++ ("municipio" ++ "/" ++ "l'Horta")) rdf_type (.uri schema_Place)
      ∉ (procesar_csv [] [rowEscenario]).1 := by
  refine ⟨by decide, by decide⟩

/-- C5 (amended): the scenario row yields exactly one Record with
area 10.5 ha, allocation 1200, consumption 12600 and cost 5000, and a
municipality Place whose normalized identifier is `lhorta` (not
`l'Horta`). -/
theorem escenario_valencia :
    (procesar_csv [] [rowEscenario]).2 = 1 ∧
    (agregar_registro_agricola [] rowEscenario 1).2 = true ∧
    (subjectsOf (procesar_csv [] [rowEscenario]).1 rdf_type (.uri schema_Event)).dedup
      = [EXs ++ ("registro/" ++ toString 1)] ∧
    Triple.mk (EXs ++ ("registro/" ++ toString 1) ++ "/superficie") schema_value
        (.litNum ⟨21, 2⟩) ∈ (procesar_csv [] [rowEscenario]).1 ∧
    Triple.mk (EXs ++ ("registro/" ++ toString 1) ++ "/dotacion") schema_value
        (.litNum ⟨1200, 1⟩) ∈ (procesar_csv [] [rowEscenario]).1 ∧
    Triple.mk (EXs ++ ("registro/" ++ toString 1) ++ "/consumo") schema_value
        (.litNum ⟨12600, 1⟩) ∈ (procesar_csv [] [rowEscenario]).1 ∧
    Triple.mk (EXs ++ ("registro/" ++ toString 1) ++ "/coste") schema_value
        (.litNum ⟨5000, 1⟩) ∈ (procesar_csv [] [rowEscenario]).1 ∧
    ratOf ⟨21, 2⟩ = (10.5 : ℚ) ∧ ratOf ⟨1200, 1⟩ = (1200 : ℚ) ∧
    ratOf ⟨12600, 1⟩ = (12600 : ℚ) ∧ ratOf ⟨5000, 1⟩ = (5000 : ℚ) ∧
    limpiar_texto "L'Horta" = "lhorta" ∧
    Triple.mk (crear_uri "municipio" "L'Horta") rdf_type (.uri schema_Place)
      ∈ (procesar_csv [] [rowEscenario]).1 ∧
    crear_uri "municipio" "L'Horta" = EXs ++ ("municipio" ++ "/" ++ "lhorta") := by
  refine ⟨by decide, by decide, by decide, by decide, by decide, by decide, by decide,
    ?_, ?_, ?_, ?_, by decide, by decide, by decide⟩
  · norm_num [ratOf]
  · norm_num [ratOf]
  · norm_num [ratOf]
  · norm_num [ratOf]

/-- C9 counterexample: two rows naming one municipality under two regions
give that municipality two distinct `containedInPlace` parents, so the
hierarchy is not a forest (a non-province Place need not have exactly one
parent). -/
theorem municipio_dos_padres :
    Triple.mk (crear_uri "municipio" "Miramar") schema_containedInPlace
        (.uri (crear_uri "comarca" "Comarca Uno"))
      ∈ (procesar_csv [] [rowDosComarcas1, rowDosComarcas2]).1 ∧
    Triple.mk (crear_uri "municipio" "Miramar") schema_containedInPlace
        (.uri (crear_uri "comarca" "Comarca Dos"))
      ∈ (procesar_csv [] [rowDosComarcas1, rowDosComarcas2]).1 ∧
    crear_uri "comarca" "Comarca Uno" ≠ crear_uri "comarca" "Comarca Dos" := by
  refine ⟨by decide, by decide, by decide⟩

/- ------------------------------------------------------------------
Enrichment lemmas.
------------------------------------------------------------------ -/

theorem lookupCache_cons_ne {c : List (String × WDResult)} {k k' : String}
    {r : WDResult} (h : k' ≠ k) : lookupCache ((k', r) :: c) k = lookupCache c k := by
  simp [lookupCache, List.find?_cons, h]

theorem lookupCache_cons_self {c : List (String × WDResult)} {k : String}
    {r : WDResult} : lookupCache ((k, r) :: c) k = some r := by
  simp [lookupCache, List.find?_cons]

theorem buscar_g (net : String → Option WDResult) (st : EnrState)
    (nombre tipo : String) : (buscar_entidad net st nombre tipo).2.g = st.g := by
  unfold buscar_entidad
  rcases h : lookupCache st.cache (cacheKey tipo (limpiar_label_sparql nombre)) with - | r
  · simp only [h]
    split
    · rcases net (cacheKey tipo (limpiar_label_sparql nombre)) with - | r <;> rfl
    · rfl
  · simp only [h]

theorem buscar_cacheOK {net : String → Option WDResult} {st : EnrState}
    (h : CacheOK net st.cache) (nombre tipo : String) :
    CacheOK net (buscar_entidad net st nombre tipo).2.cache := by
  unfold buscar_entidad
  rcases hl : lookupCache st.cache (cacheKey tipo (limpiar_label_sparql nombre)) with - | r
  · simp only [hl]
    split
    · rcases hn : net (cacheKey tipo (limpiar_label_sparql nombre)) with - | r
      · exact h
      · intro k0 r0 hk0
        rcases eq_or_ne (cacheKey tipo (limpiar_label_sparql nombre)) k0 with rfl | hne
        · rw [lookupCache_cons_self] at hk0
          exact hn.trans hk0
        · rw [lookupCache_cons_ne hne] at hk0
          exact h k0 r0 hk0
    · exact h
  · simp only [hl]
    exact h

theorem buscar_fst {net : String → Option WDResult} {st : EnrState}
    {nombre tipo : String} (h : CacheOK net st.cache)
    (htipo : tipo = "municipio" ∨ tipo = "cultivo") :
    (buscar_entidad net st nombre tipo).1
      = net (cacheKey tipo (limpiar_label_sparql nombre)) := by
  unfold buscar_entidad
  rcases hl : lookupCache st.cache (cacheKey tipo (limpiar_label_sparql nombre)) with - | r
  · simp only [hl]
    rw [if_pos htipo]
    rcases hn : net (cacheKey tipo (limpiar_label_sparql nombre)) with - | r <;> simp
  · simp only [hl]
    exact (h _ r hl).symm

theorem buscar_queriesOK {net : String → Option WDResult} {st : EnrState}
    {key : String} (hn : (net key).isSome = true) (h : QueriesOK key st)
    (nombre tipo : String) : QueriesOK key (buscar_entidad net st nombre tipo).2 := by
  unfold buscar_entidad
  rcases hl : lookupCache st.cache (cacheKey tipo (limpiar_label_sparql nombre)) with - | r
  · simp only [hl]
    split
    · rcases hnk : net (cacheKey tipo (limpiar_label_sparql nombre)) with - | r
      · -- query issued, not found, nothing cached
        rcases eq_or_ne (cacheKey tipo (limpiar_label_sparql nombre)) key with rfl | hne
        · rw [hnk] at hn
          exact absurd hn (by simp)
        · have hone : List.count key [cacheKey tipo (limpiar_label_sparql nombre)] = 0 :=
            List.count_eq_zero.2 (by simp [List.mem_singleton]; exact Ne.symm hne)
          refine ⟨?_, ?_⟩
          · show (st.queries ++ [_]).count key ≤ 1
            rw [List.count_append, hone]
            simpa using h.1
          · intro hc
            rw [List.count_append, hone] at hc
            refine h.2 ?_
            simpa using hc
      · -- query issued and cached
        rcases eq_or_ne (cacheKey tipo (limpiar_label_sparql nombre)) key with rfl | hne
        · have hz : st.queries.count (cacheKey tipo (limpiar_label_sparql nombre)) = 0 := by
            rcases Nat.lt_or_ge (st.queries.count (cacheKey tipo (limpiar_label_sparql nombre))) 1
              with h1 | h1
            · omega
            · have := h.2 (le_antisymm h.1 h1)
              rw [hl] at this
              exact absurd this (by simp)
          have hone : List.count (cacheKey tipo (limpiar_label_sparql nombre))
              [cacheKey tipo (limpiar_label_sparql nombre)] = 1 := by
            simp
          refine ⟨?_, fun _ => ?_⟩
          · show (st.queries ++ [_]).count _ ≤ 1
            rw [List.count_append, hone, hz]
          · rw [lookupCache_cons_self]
            rfl
        · have hone : List.count key [cacheKey tipo (limpiar_label_sparql nombre)] = 0 :=
            List.count_eq_zero.2 (by simp [List.mem_singleton]; exact Ne.symm hne)
          refine ⟨?_, ?_⟩
          · show (st.queries ++ [_]).count key ≤ 1
            rw [List.count_append, hone]
            simpa using h.1
          · intro hc
            rw [lookupCache_cons_ne hne]
            rw [List.count_append, hone] at hc
            refine h.2 ?_
            simpa using hc
    · exact h
  · simp only [hl]
    exact h

theorem enriquecer_con_cache (net : String → Option WDResult) (tipo : String)
    (adds : String → WDResult → List Triple) (st : EnrState) (uri nombre : String) :
    (enriquecer_con net tipo adds st uri nombre).1.cache
        = (buscar_entidad net st nombre tipo).2.cache ∧
    (enriquecer_con net tipo adds st uri nombre).1.queries
        = (buscar_entidad net st nombre tipo).2.queries := by
  unfold enriquecer_con
  rcases hb : buscar_entidad net st nombre tipo with ⟨res, st1⟩
  rcases res with - | r <;> simp

theorem enriquecer_con_queriesOK {net : String → Option WDResult} {key : String}
    (hn : (net key).isSome = true) (tipo : String)
    (adds : String → WDResult → List Triple) {st : EnrState} (h : QueriesOK key st)
    (uri nombre : String) : QueriesOK key (enriquecer_con net tipo adds st uri nombre).1 := by
  have hq := buscar_queriesOK hn h nombre tipo
  have hc := enriquecer_con_cache net tipo adds st uri nombre
  constructor
  · rw [hc.2]
    exact hq.1
  · rw [hc.2, hc.1]
    exact hq.2

theorem enriquecer_con_cacheOK {net : String → Option WDResult} (tipo : String)
    (adds : String → WDResult → List Triple) {st : EnrState}
    (h : CacheOK net st.cache) (uri nombre : String) :
    CacheOK net (enriquecer_con net tipo adds st uri nombre).1.cache := by
  rw [(enriquecer_con_cache net tipo adds st uri nombre).1]
  exact buscar_cacheOK h nombre tipo

/-- The counter start does not influence the state a batch ends in. -/
theorem bucle_fst_start_indep (net : String → Option WDResult) (tipo : String)
    (adds : String → WDResult → List Triple) :
    ∀ (l : List (String × String)) (st : EnrState) (n m : ℕ),
      (l.foldl (fun acc p =>
          let r := enriquecer_con net tipo adds acc.1 p.1 p.2
          (r.1, acc.2 + (if r.2 then 1 else 0))) (st, n)).1
        = (l.foldl (fun acc p =>
          let r := enriquecer_con net tipo adds acc.1 p.1 p.2
          (r.1, acc.2 + (if r.2 then 1 else 0))) (st, m)).1 := by
  intro l
  induction l with
  | nil => intro st n m; rfl
  | cons p l ih => intro st n m; rw [List.foldl_cons, List.foldl_cons]; exact ih _ _ _

theorem bucle_fst_nil (net : String → Option WDResult) (tipo : String)
    (adds : String → WDResult → List Triple) (st : EnrState) :
    (enriquecer_bucle net tipo adds st []).1 = st := rfl

theorem bucle_fst_cons (net : String → Option WDResult) (tipo : String)
    (adds : String → WDResult → List Triple) (st : EnrState)
    (p : String × String) (l : List (String × String)) :
    (enriquecer_bucle net tipo adds st (p :: l)).1
      = (enriquecer_bucle net tipo adds
          (enriquecer_con net tipo adds st p.1 p.2).1 l).1 := by
  show (l.foldl _ ((enriquecer_con net tipo adds st p.1 p.2).1, _)).1 = _
  exact bucle_fst_start_indep net tipo adds l _ _ 0

/-- A state invariant preserved by each enrichment step is preserved by a
whole batch. -/
theorem bucle_inv {net : String → Option WDResult} {tipo : String}
    {adds : String → WDResult → List Triple} (P : EnrState → Prop)
    (hstep : ∀ st uri nombre, P st → P (enriquecer_con net tipo adds st uri nombre).1) :
    ∀ (l : List (String × String)) (st : EnrState), P st →
      P (enriquecer_bucle net tipo adds st l).1 := by
  intro l
  induction l with
  | nil => intro st h; exact h
  | cons p l ih =>
    intro st h
    rw [bucle_fst_cons]
    exact ih _ (hstep st p.1 p.2 h)

/-- C1 (amended): per enrichment run and cache key, at most one network
query is issued for any key whose lookup succeeds (a match is cached and
every later lookup of that key is served from the cache). -/
theorem consulta_unica_por_clave_exitosa (net : String → Option WDResult)
    (g : Graph) (maxM maxC : ℕ) (key : String) (hn : (net key).isSome = true) :
    ((enriquecer_grafo net g maxM maxC).1).queries.count key ≤ 1 := by
  have h0 : QueriesOK key ⟨g, [], []⟩ := ⟨by simp, by simp⟩
  have h1 := bucle_inv (QueriesOK key)
    (fun st uri nombre h => enriquecer_con_queriesOK hn "municipio" muniAdds h uri nombre)
    ((municipiosDe g).take maxM) ⟨g, [], []⟩ h0
  have h2 := bucle_inv (QueriesOK key)
    (fun st uri nombre h => enriquecer_con_queriesOK hn "cultivo" cultivoAdds h uri nombre)
    ((cultivosDe (enriquecer_bucle net "municipio" muniAdds ⟨g, [], []⟩
        ((municipiosDe g).take maxM)).1.g).take maxC) _ h1
  exact h2.1

/-- C1 counterexample: with a network that finds nothing, two local
municipalities sharing one label make the run issue two network queries
for the same cache key — and the second lookup of the key is not served
from the cache, because a "not found" outcome is never cached. -/
theorem cache_consulta_repetida :
    ((enriquecer_grafo netNone grafoDosMunicipios 50 50).1).queries.count
        (cacheKey "municipio" (limpiar_label_sparql "Xirivella")) = 2 := by
  decide

/-- C1 witness: with a network that always matches, the shared key is
queried exactly once. -/
theorem consulta_unica_witness :
    (netQ1 (cacheKey "municipio" (limpiar_label_sparql "Xirivella"))).isSome = true ∧
    ((enriquecer_grafo netQ1 grafoDosMunicipios 50 50).1).queries.count
        (cacheKey "municipio" (limpiar_label_sparql "Xirivella")) ≤ 1 :=
  ⟨by decide,
   consulta_unica_por_clave_exitosa netQ1 grafoDosMunicipios 50 50
     (cacheKey "municipio" (limpiar_label_sparql "Xirivella")) (by decide)⟩

theorem enriquecer_con_extends {net : String → Option WDResult} {tipo : String}
    {adds : String → WDResult → List Triple} {P : Triple → Prop}
    (hP : ∀ uri r, ∀ t ∈ adds uri r, P t) (st : EnrState) (uri nombre : String) :
    ExtendsBy st.g (enriquecer_con net tipo adds st uri nombre).1.g P := by
  unfold enriquecer_con
  rcases hb : buscar_entidad net st nombre tipo with ⟨res, st1⟩
  have hg : st1.g = st.g := by
    have := buscar_g net st nombre tipo
    rw [hb] at this
    exact this
  rcases res with - | r
  · show ExtendsBy st.g st1.g P
    rw [hg]
    exact extendsBy_refl
  · show ExtendsBy st.g (addAll st1.g (adds uri r)) P
    rw [hg]
    exact extendsBy_addAll (hP uri r)

theorem enriquecer_con_g_eq {net : String → Option WDResult} {tipo : String}
    {adds : String → WDResult → List Triple} {st : EnrState}
    (h : CacheOK net st.cache) (htipo : tipo = "municipio" ∨ tipo = "cultivo")
    (uri nombre : String) :
    (enriquecer_con net tipo adds st uri nombre).1.g
      = match net (cacheKey tipo (limpiar_label_sparql nombre)) with
        | some r => addAll st.g (adds uri r)
        | none => st.g := by
  unfold enriquecer_con
  rcases hb : buscar_entidad net st nombre tipo with ⟨res, st1⟩
  have hg : st1.g = st.g := by
    have := buscar_g net st nombre tipo
    rw [hb] at this
    exact this
  have hres : res = net (cacheKey tipo (limpiar_label_sparql nombre)) := by
    have := @buscar_fst net st nombre tipo h htipo
    rw [hb] at this
    exact this
  rw [← hres]
  rcases res with - | r
  · show st1.g = st.g
    exact hg
  · show addAll st1.g (adds uri r) = addAll st.g (adds uri r)
    rw [hg]

theorem bucle_extends {net : String → Option WDResult} {tipo : String}
    {adds : String → WDResult → List Triple} {P : Triple → Prop}
    (hP : ∀ uri r, ∀ t ∈ adds uri r, P t) :
    ∀ (l : List (String × String)) (st : EnrState),
      ExtendsBy st.g (enriquecer_bucle net tipo adds st l).1.g P := by
  intro l
  induction l with
  | nil => intro st; exact extendsBy_refl
  | cons p l ih =>
    intro st
    rw [bucle_fst_cons]
    exact extendsBy_trans (enriquecer_con_extends hP st p.1 p.2) (ih _)

theorem bucle_mem {net : String → Option WDResult} {tipo : String}
    {adds : String → WDResult → List Triple} {l : List (String × String)}
    {st : EnrState} {t : Triple} (h : t ∈ st.g) :
    t ∈ (enriquecer_bucle net tipo adds st l).1.g :=
  extendsBy_mem (bucle_extends (P := fun _ => True) (fun _ _ _ _ => trivial) l st) h

theorem bucle_cacheOK {net : String → Option WDResult} {tipo : String}
    {adds : String → WDResult → List Triple} {l : List (String × String)}
    {st : EnrState} (h : CacheOK net st.cache) :
    CacheOK net (enriquecer_bucle net tipo adds st l).1.cache :=
  bucle_inv (fun st => CacheOK net st.cache)
    (fun st uri nombre hst => enriquecer_con_cacheOK tipo adds hst uri nombre) l st h

theorem bucle_coverage {net : String → Option WDResult} {tipo : String}
    {adds : String → WDResult → List Triple}
    (htipo : tipo = "municipio" ∨ tipo = "cultivo") :
    ∀ (l : List (String × String)) (st : EnrState), CacheOK net st.cache →
      ∀ p ∈ l, ∀ r, net (cacheKey tipo (limpiar_label_sparql p.2)) = some r →
        ∀ t ∈ adds p.1 r, t ∈ (enriquecer_bucle net tipo adds st l).1.g := by
  intro l
  induction l with
  | nil => intro st _ p hp; simp at hp
  | cons p0 l ih =>
    intro st hok p hp r hr t ht
    rw [bucle_fst_cons]
    rcases List.mem_cons.1 hp with rfl | hp'
    · refine bucle_mem ?_
      rw [enriquecer_con_g_eq hok htipo, hr]
      exact (mem_addAll _ _).2 (Or.inr ht)
    · exact ih _ (enriquecer_con_cacheOK tipo adds hok p0.1 p0.2) p hp' r hr t ht

theorem bucle_fix {net : String → Option WDResult} {tipo : String}
    {adds : String → WDResult → List Triple}
    (htipo : tipo = "municipio" ∨ tipo = "cultivo") :
    ∀ (l : List (String × String)) (st : EnrState), CacheOK net st.cache →
      (∀ p ∈ l, ∀ r, net (cacheKey tipo (limpiar_label_sparql p.2)) = some r →
        ∀ t ∈ adds p.1 r, t ∈ st.g) →
      (enriquecer_bucle net tipo adds st l).1.g = st.g := by
  intro l
  induction l with
  | nil => intro st _ _; rfl
  | cons p0 l ih =>
    intro st hok hcov
    rw [bucle_fst_cons]
    have hstep : (enriquecer_con net tipo adds st p0.1 p0.2).1.g = st.g := by
      rw [enriquecer_con_g_eq hok htipo]
      rcases hn : net (cacheKey tipo (limpiar_label_sparql p0.2)) with - | r
      · rfl
      · exact addAll_eq_of_subset (hcov p0 (by simp) r hn)
    rw [ih _ (enriquecer_con_cacheOK tipo adds hok p0.1 p0.2) ?_, hstep]
    intro p hp r hr t ht
    rw [hstep]
    exact hcov p (by simp [hp]) r hr t ht

-- Scan invariance under appended enrichment triples.

theorem subjectsOf_append (g E : Graph) (p : String) (o : RDFObject) :
    subjectsOf (g ++ E) p o = subjectsOf g p o ++ subjectsOf E p o := by
  simp [subjectsOf, List.filter_append]

theorem subjectsOf_eq_nil {E : Graph} {p : String} {o : RDFObject}
    (h : ∀ t ∈ E, ¬(t.pred = p ∧ t.obj = o)) : subjectsOf E p o = [] := by
  unfold subjectsOf
  rw [List.filter_eq_nil_iff.2 (by simpa using h)]
  rfl

theorem objectsOf_append (g E : Graph) (s p : String) :
    objectsOf (g ++ E) s p = objectsOf g s p ++ objectsOf E s p := by
  simp [objectsOf, List.filter_append]

theorem objectsOf_eq_nil {E : Graph} {s p : String}
    (h : ∀ t ∈ E, ¬(t.subj = s ∧ t.pred = p)) : objectsOf E s p = [] := by
  unfold objectsOf
  rw [List.filter_eq_nil_iff.2 (by simpa using h)]
  rfl

theorem municipiosDe_append {g E : Graph} (h : ∀ t ∈ E, ScanInerte t) :
    municipiosDe (g ++ E) = municipiosDe g := by
  unfold municipiosDe
  have hobj : ∀ s, objectsOf (g ++ E) s schema_name = objectsOf g s schema_name := by
    intro s
    rw [objectsOf_append, objectsOf_eq_nil (fun t ht hc => (h t ht).2.1 hc.2),
      List.append_nil]
  rw [subjectsOf_append, subjectsOf_eq_nil (fun t ht hc => (h t ht).1 hc.1),
    List.append_nil]
  exact List.filterMap_congr (fun s _ => by rw [hobj s])

theorem cultivosDe_append {g E : Graph} (h : ∀ t ∈ E, ScanInerte t) :
    cultivosDe (g ++ E) = cultivosDe g := by
  unfold cultivosDe
  have hobj : ∀ s, objectsOf (g ++ E) s schema_name = objectsOf g s schema_name := by
    intro s
    rw [objectsOf_append, objectsOf_eq_nil (fun t ht hc => (h t ht).2.1 hc.2),
      List.append_nil]
  rw [subjectsOf_append,
    subjectsOf_eq_nil (fun t ht hc => (h t ht).2.2 hc.1 hc.2),
    List.append_nil]
  exact List.filterMap_congr (fun s _ => by rw [hobj s])

theorem geoAdds_inerte (uri c : String) : ∀ t ∈ geoAdds uri c, ScanInerte t := by
  intro t ht
  unfold geoAdds at ht
  by_cases hc : containsSub c "Point" = true
  · rw [if_pos hc] at ht
    have hT : ScanInerte (Triple.mk (uri ++ "/geo") rdf_type (.uri schema_GeoCoordinates)) :=
      ⟨(by decide : rdf_type ≠ schema_additionalType),
       (by decide : rdf_type ≠ schema_name),
       fun _ => (by decide : RDFObject.uri schema_GeoCoordinates ≠ RDFObject.uri schema_Product)⟩
    rcases h1 : pySplitWs (pyReplaceAll (pyReplaceAll c "Point(" "") ")" "") with - | ⟨p0, rest⟩
    · rw [h1] at ht
      have : t = Triple.mk (uri ++ "/geo") rdf_type (.uri schema_GeoCoordinates) := by
        simpa using ht
      rw [this]
      exact hT
    · rw [h1] at ht
      dsimp only [] at ht
      rcases h2 : pyFloat p0 with - | lon
      · rw [h2] at ht
        dsimp only [] at ht
        have : t = Triple.mk (uri ++ "/geo") rdf_type (.uri schema_GeoCoordinates) := by
          simpa using ht
        rw [this]
        exact hT
      · rw [h2] at ht
        dsimp only [] at ht
        have hL : ScanInerte (Triple.mk (uri ++ "/geo") schema_longitude (.litNum lon)) :=
          ⟨(by decide : schema_longitude ≠ schema_additionalType),
           (by decide : schema_longitude ≠ schema_name),
           fun hp => absurd hp (by decide : schema_longitude ≠ rdf_type)⟩
        rcases h3 : rest with - | ⟨p1, tail⟩
        · rw [h3] at ht
          dsimp only [] at ht
          rcases (by simpa using ht :
              t = Triple.mk (uri ++ "/geo") rdf_type (.uri schema_GeoCoordinates) ∨
              t = Triple.mk (uri ++ "/geo") schema_longitude (.litNum lon)) with rfl | rfl
          · exact hT
          · exact hL
        · rw [h3] at ht
          dsimp only [] at ht
          rcases h4 : pyFloat p1 with - | lat
          · rw [h4] at ht
            dsimp only [] at ht
            rcases (by simpa using ht :
                t = Triple.mk (uri ++ "/geo") rdf_type (.uri schema_GeoCoordinates) ∨
                t = Triple.mk (uri ++ "/geo") schema_longitude (.litNum lon)) with rfl | rfl
            · exact hT
            · exact hL
          · rw [h4] at ht
            dsimp only [] at ht
            rcases (by simpa using ht :
                t = Triple.mk (uri ++ "/geo") rdf_type (.uri schema_GeoCoordinates) ∨
                t = Triple.mk (uri ++ "/geo") schema_longitude (.litNum lon) ∨
                t = Triple.mk (uri ++ "/geo") schema_latitude (.litNum lat) ∨
                t = Triple.mk uri schema_geo (.uri (uri ++ "/geo"))) with rfl | rfl | rfl | rfl
            · exact hT
            · exact hL
            · exact ⟨(by decide : schema_latitude ≠ schema_additionalType),
                (by decide : schema_latitude ≠ schema_name),
                fun hp => absurd hp (by decide : schema_latitude ≠ rdf_type)⟩
            · exact ⟨(by decide : schema_geo ≠ schema_additionalType),
                (by decide : schema_geo ≠ schema_name),
                fun hp => absurd hp (by decide : schema_geo ≠ rdf_type)⟩
  · rw [if_neg hc] at ht
    simp at ht

theorem muniAdds_inerte (uri : String) (r : WDResult) :
    ∀ t ∈ muniAdds uri r, ScanInerte t := by
  intro t ht
  unfold muniAdds at ht
  rcases List.mem_cons.1 ht with rfl | ht'
  · exact ⟨(by decide : owl_sameAs ≠ schema_additionalType),
      (by decide : owl_sameAs ≠ schema_name),
      fun hp => absurd hp (by decide : owl_sameAs ≠ rdf_type)⟩
  rcases List.mem_append.1 ht' with hgeo | hpop
  · rcases hc : r.coord with - | c
    · rw [hc] at hgeo
      simp at hgeo
    · rw [hc] at hgeo
      exact geoAdds_inerte uri c t hgeo
  · rcases hp : r.poblacion with - | pz
    · rw [hp] at hpop
      simp at hpop
    · rw [hp] at hpop
      have : t = Triple.mk uri schema_population (.litInt pz) := by
        simpa using hpop
      rw [this]
      exact ⟨(by decide : schema_population ≠ schema_additionalType),
        (by decide : schema_population ≠ schema_name),
        fun hp2 => absurd hp2 (by decide : schema_population ≠ rdf_type)⟩

theorem cultivoAdds_inerte (uri : String) (r : WDResult) :
    ∀ t ∈ cultivoAdds uri r, ScanInerte t := by
  intro t ht
  unfold cultivoAdds at ht
  rcases List.mem_cons.1 ht with rfl | ht'
  · exact ⟨(by decide : owl_sameAs ≠ schema_additionalType),
      (by decide : owl_sameAs ≠ schema_name),
      fun hp => absurd hp (by decide : owl_sameAs ≠ rdf_type)⟩
  · rcases hx : r.taxon with - | tx
    · rw [hx] at ht'
      simp at ht'
    · rw [hx] at ht'
      have : t = Triple.mk uri schema_additionalProperty
          (.litStr ("Taxón: " ++ tx) (some "la")) := by
        simpa using ht'
      rw [this]
      exact ⟨(by decide : schema_additionalProperty ≠ schema_additionalType),
        (by decide : schema_additionalProperty ≠ schema_name),
        fun hp => absurd hp (by decide : schema_additionalProperty ≠ rdf_type)⟩

theorem enriquecer_grafo_g_eq (net : String → Option WDResult) (g : Graph)
    (maxM maxC : ℕ) :
    (enriquecer_grafo net g maxM maxC).1.g
      = (enriquecer_bucle net "cultivo" cultivoAdds
          (enriquecer_bucle net "municipio" muniAdds ⟨g, [], []⟩
            ((municipiosDe g).take maxM)).1
          ((cultivosDe (enriquecer_bucle net "municipio" muniAdds ⟨g, [], []⟩
              ((municipiosDe g).take maxM)).1.g).take maxC)).1.g := rfl

theorem cacheOK_nil (net : String → Option WDResult) : CacheOK net [] := by
  intro k r hk
  simp [lookupCache] at hk

/-- C8: enrichment is idempotent on the graph.  With a fixed network
oracle, a second enrichment pass over the already enriched graph re-adds
exactly the triples of the first pass, which the set store ignores: the
fact set is unchanged. -/
theorem enriquecimiento_idempotente (net : String → Option WDResult) (g : Graph)
    (maxM maxC : ℕ) :
    (enriquecer_grafo net (enriquecer_grafo net g maxM maxC).1.g maxM maxC).1.g
      = (enriquecer_grafo net g maxM maxC).1.g := by
  simp only [enriquecer_grafo_g_eq]
  set rm := enriquecer_bucle net "municipio" muniAdds ⟨g, [], []⟩
    ((municipiosDe g).take maxM) with hrm
  set G1 := (enriquecer_bucle net "cultivo" cultivoAdds rm.1
    ((cultivosDe rm.1.g).take maxC)).1.g with hG1
  -- first-run shape facts
  obtain ⟨Em, hEm, hPm⟩ :=
    @bucle_extends net "municipio" _ _ muniAdds_inerte
      ((municipiosDe g).take maxM) ⟨g, [], []⟩
  obtain ⟨Ec, hEc, hPc⟩ :=
    @bucle_extends net "cultivo" _ _ cultivoAdds_inerte
      ((cultivosDe rm.1.g).take maxC) rm.1
  rw [← hrm] at hEm
  have hg1g : G1 = g ++ (Em ++ Ec) := by
    rw [hG1, hEc, hEm]
    simp [List.append_assoc]
  have hPmc : ∀ t ∈ Em ++ Ec, ScanInerte t := by
    intro t ht
    rcases List.mem_append.1 ht with h | h
    · exact hPm t h
    · exact hPc t h
  have hscanM : municipiosDe G1 = municipiosDe g := by
    rw [hg1g]
    exact municipiosDe_append hPmc
  have hscanC : cultivosDe G1 = cultivosDe rm.1.g := by
    rw [hG1, hEc]
    exact cultivosDe_append hPc
  -- coverage of the first run inside the final graph
  have hcovM : ∀ p ∈ (municipiosDe g).take maxM, ∀ r,
      net (cacheKey "municipio" (limpiar_label_sparql p.2)) = some r →
      ∀ t ∈ muniAdds p.1 r, t ∈ G1 := by
    intro p hp r hr t ht
    have h1 := bucle_coverage (Or.inl rfl) ((municipiosDe g).take maxM)
      ⟨g, [], []⟩ (cacheOK_nil net) p hp r hr t ht
    rw [← hrm] at h1
    rw [hG1, hEc]
    exact List.mem_append_left _ h1
  have hcovC : ∀ p ∈ (cultivosDe rm.1.g).take maxC, ∀ r,
      net (cacheKey "cultivo" (limpiar_label_sparql p.2)) = some r →
      ∀ t ∈ cultivoAdds p.1 r, t ∈ G1 := by
    intro p hp r hr t ht
    have hcm : CacheOK net rm.1.cache := by
      rw [hrm]
      exact bucle_cacheOK (cacheOK_nil net)
    exact bucle_coverage (Or.inr rfl) ((cultivosDe rm.1.g).take maxC)
      rm.1 hcm p hp r hr t ht
  -- second run
  rw [hscanM]
  have hfix1 : (enriquecer_bucle net "municipio" muniAdds ⟨G1, [], []⟩
      ((municipiosDe g).take maxM)).1.g = G1 := by
    refine bucle_fix (Or.inl rfl) _ _ (cacheOK_nil net) ?_
    intro p hp r hr t ht
    exact hcovM p hp r hr t ht
  rw [hfix1, hscanC]
  have hfix2 : (enriquecer_bucle net "cultivo" cultivoAdds
      (enriquecer_bucle net "municipio" muniAdds ⟨G1, [], []⟩
        ((municipiosDe g).take maxM)).1
      ((cultivosDe rm.1.g).take maxC)).1.g
        = (enriquecer_bucle net "municipio" muniAdds ⟨G1, [], []⟩
            ((municipiosDe g).take maxM)).1.g := by
    refine bucle_fix (Or.inr rfl) _ _ ?_ ?_
    · exact bucle_cacheOK (cacheOK_nil net)
    · intro p hp r hr t ht
      rw [hfix1]
      exact hcovC p hp r hr t ht
  rw [hfix2, hfix1]

/-- C10 counterexample: a matched municipality whose coordinate text
contains `Point` but does not parse still gets the `sameAs` fact and is
counted as linked — but geo sub-entity facts are also written, against
the claim that none are: the `GeoCoordinates` type triple always (it is
added before the first `float` call), and for `Point(1.5 xyz)` — whose
first token parses and whose second does not — the longitude triple too
(added before the failing second `float` call); the geo link itself is
never added. -/
theorem geo_parcial_presente :
    (enriquecer_municipio netPuntoMalo ⟨grafoDosMunicipios, [], []⟩
        (EXs ++ "municipio/xirivella") "Xirivella").2 = true ∧
    Triple.mk (EXs ++ "municipio/xirivella") owl_sameAs
        (.uri "http://www.wikidata.org/entity/Q2")
      ∈ (enriquecer_municipio netPuntoMalo ⟨grafoDosMunicipios, [], []⟩
          (EXs ++ "municipio/xirivella") "Xirivella").1.g ∧
    Triple.mk (EXs ++ "municipio/xirivella" ++ "/geo") rdf_type
        (.uri schema_GeoCoordinates)
      ∈ (enriquecer_municipio netPuntoMalo ⟨grafoDosMunicipios, [], []⟩
          (EXs ++ "municipio/xirivella") "Xirivella").1.g ∧
    (enriquecer_municipio netPuntoMalo2 ⟨[], [], []⟩ "u" "X").2 = true ∧
    Triple.mk ("u" ++ "/geo") schema_longitude (.litNum ⟨3, 2⟩)
      ∈ (enriquecer_municipio netPuntoMalo2 ⟨[], [], []⟩ "u" "X").1.g ∧
    Triple.mk "u" schema_geo (.uri ("u" ++ "/geo"))
      ∉ (enriquecer_municipio netPuntoMalo2 ⟨[], [], []⟩ "u" "X").1.g := by
  refine ⟨by decide, by decide, by decide, by decide, by decide, by decide⟩

/-- C10 (amended): when the matched coordinate text contains `Point` but
cannot be parsed as a `Point(lon lat)` pair — the token list is empty, the
first token does not parse as a float, or the second token is missing or
does not parse — the failure is swallowed: the entity is counted as
linked, the `sameAs` fact and the geo sub-entity's `GeoCoordinates` type
fact are written, the longitude fact is written exactly when the first
token parses (the failure coming at the second token), and no latitude or
geo-link fact is ever added. -/
theorem coordenada_malformada (net : String → Option WDResult) (st : EnrState)
    (uri nombre item c : String)
    (hl : lookupCache st.cache (cacheKey "municipio" (limpiar_label_sparql nombre)) = none)
    (hn : net (cacheKey "municipio" (limpiar_label_sparql nombre))
        = some ⟨item, some c, none, none⟩)
    (hpoint : containsSub c "Point" = true)
    (hfail : ∀ (t0 t1 : String) (rest : List String),
        pySplitWs (pyReplaceAll (pyReplaceAll c "Point(" "") ")" "") = t0 :: t1 :: rest →
        pyFloat t0 = none ∨ pyFloat t1 = none) :
    (enriquecer_municipio net st uri nombre).2 = true ∧
    (enriquecer_municipio net st uri nombre).1.g
      = addAll st.g
          (Triple.mk uri owl_sameAs (.uri item) ::
           Triple.mk (uri ++ "/geo") rdf_type (.uri schema_GeoCoordinates) ::
           (match pySplitWs (pyReplaceAll (pyReplaceAll c "Point(" "") ")" "") with
            | [] => ([] : List Triple)
            | t0 :: _ =>
              match pyFloat t0 with
              | none => []
              | some lon => [Triple.mk (uri ++ "/geo") schema_longitude (.litNum lon)])) ∧
    ∀ t ∈ (enriquecer_municipio net st uri nombre).1.g,
      t.pred = schema_latitude ∨ t.pred = schema_geo → t ∈ st.g := by
  have hgeo : geoAdds uri c
      = Triple.mk (uri ++ "/geo") rdf_type (.uri schema_GeoCoordinates) ::
        (match pySplitWs (pyReplaceAll (pyReplaceAll c "Point(" "") ")" "") with
         | [] => ([] : List Triple)
         | t0 :: _ =>
           match pyFloat t0 with
           | none => []
           | some lon => [Triple.mk (uri ++ "/geo") schema_longitude (.litNum lon)]) := by
    rcases hts : pySplitWs (pyReplaceAll (pyReplaceAll c "Point(" "") ")" "") with - | ⟨t0, rest⟩
    · unfold geoAdds
      simp [hpoint, hts]
    · rcases hf : pyFloat t0 with - | lon
      · unfold geoAdds
        simp [hpoint, hts, hf]
      · rcases rest with - | ⟨t1, rest2⟩
        · unfold geoAdds
          simp [hpoint, hts, hf]
        · rcases hfail t0 t1 rest2 hts with h0 | h1
          · rw [h0] at hf
            exact absurd hf (by simp)
          · unfold geoAdds
            simp [hpoint, hts, hf, h1]
  have hpreds : ∀ t ∈ geoAdds uri c,
      t.pred ≠ schema_latitude ∧ t.pred ≠ schema_geo := by
    rw [hgeo]
    intro t ht
    rcases List.mem_cons.1 ht with rfl | ht2
    · exact ⟨(by decide : rdf_type ≠ schema_latitude),
             (by decide : rdf_type ≠ schema_geo)⟩
    · rcases hts : pySplitWs (pyReplaceAll (pyReplaceAll c "Point(" "") ")" "") with - | ⟨t0, rest⟩
      · rw [hts] at ht2
        simp at ht2
      · rw [hts] at ht2
        rcases hf : pyFloat t0 with - | lon
        · simp [hf] at ht2
        · simp [hf] at ht2
          rw [ht2]
          exact ⟨(by decide : schema_longitude ≠ schema_latitude),
                 (by decide : schema_longitude ≠ schema_geo)⟩
  have hadds : muniAdds uri ⟨item, some c, none, none⟩
      = Triple.mk uri owl_sameAs (.uri item) :: geoAdds uri c := by
    unfold muniAdds
    simp
  have hbuscar : buscar_entidad net st nombre "municipio"
      = (some ⟨item, some c, none, none⟩,
         { st with
            cache := (cacheKey "municipio" (limpiar_label_sparql nombre),
              (⟨item, some c, none, none⟩ : WDResult)) :: st.cache,
            queries := st.queries
              ++ [cacheKey "municipio" (limpiar_label_sparql nombre)] }) := by
    unfold buscar_entidad
    dsimp only []
    rw [hl]
    simp [hn]
  unfold enriquecer_municipio enriquecer_con
  rw [hbuscar]
  dsimp only []
  refine ⟨rfl, ?_, ?_⟩
  · rw [hadds, hgeo]
  · intro t ht hp
    rw [hadds] at ht
    rcases (mem_addAll _ _).1 ht with hg | hm
    · exact hg
    · exfalso
      rcases List.mem_cons.1 hm with rfl | hm2
      · rcases hp with h | h
        · exact absurd h (by decide : owl_sameAs ≠ schema_latitude)
        · exact absurd h (by decide : owl_sameAs ≠ schema_geo)
      · rcases hp with h | h
        · exact (hpreds t hm2).1 h
        · exact (hpreds t hm2).2 h

/-- C10 witness: the amended statement at a concrete coordinate whose
first token parses and whose second token does not — the longitude fact
leaks, the latitude and geo-link facts do not. -/
theorem coordenada_malformada_witness :
    (enriquecer_municipio netPuntoMalo2 ⟨[], [], []⟩ "u" "X").2 = true ∧
    (enriquecer_municipio netPuntoMalo2 ⟨[], [], []⟩ "u" "X").1.g
      = addAll ([] : Graph)
          (Triple.mk "u" owl_sameAs (.uri "http://www.wikidata.org/entity/Q2") ::
           Triple.mk ("u" ++ "/geo") rdf_type (.uri schema_GeoCoordinates) ::
           [Triple.mk ("u" ++ "/geo") schema_longitude (.litNum ⟨3, 2⟩)]) ∧
    ∀ t ∈ (enriquecer_municipio netPuntoMalo2 ⟨[], [], []⟩ "u" "X").1.g,
      t.pred = schema_latitude ∨ t.pred = schema_geo → t ∈ ([] : Graph) :=
  coordenada_malformada netPuntoMalo2 ⟨[], [], []⟩ "u" "X"
    "http://www.wikidata.org/entity/Q2" "Point(1.5 xyz)"
    (by decide) rfl (by decide)
    (fun t0 t1 rest hsp => by
      have hs : pySplitWs (pyReplaceAll (pyReplaceAll "Point(1.5 xyz)" "Point(" "") ")" "")
          = ["1.5", "xyz"] := by decide
      rw [hs] at hsp
      injection hsp with h1 h2
      injection h2 with h3 h4
      rw [← h3]
      exact Or.inr (by decide))

/- ------------------------------------------------------------------
Lemmas on the label normalizer's regular-expression model.
------------------------------------------------------------------ -/

theorem dropWhile_eq_self_of_length {α : Type} {p : α → Bool} :
    ∀ {l : List α}, (l.dropWhile p).length = l.length → l.dropWhile p = l := by
  intro l
  induction l with
  | nil => intro _; rfl
  | cons c t _ =>
    intro h
    rw [List.dropWhile_cons] at h ⊢
    by_cases hc : p c = true
    · rw [if_pos hc] at h ⊢
      exfalso
      have := (List.dropWhile_sublist (l := t) p).length_le
      simp only [List.length_cons] at h
      omega
    · rw [if_neg hc]

theorem dropWhile_eq_self_head {α : Type} {p : α → Bool} {l : List α}
    (h : l.dropWhile p = l) : ∀ c, l.head? = some c → p c = false := by
  intro c hc
  rcases l with - | ⟨c0, t⟩
  · simp at hc
  · rw [List.dropWhile_cons] at h
    simp at hc
    subst hc
    by_contra hp
    rw [if_pos (by simpa using hp)] at h
    have := congrArg List.length h
    have hle := (List.dropWhile_sublist (l := t) p).length_le
    simp at this
    omega

theorem dropWhile_eq_self_of_head {α : Type} {p : α → Bool} {l : List α}
    (h : ∀ c, l.head? = some c → p c = false) : l.dropWhile p = l := by
  rcases l with - | ⟨c, t⟩
  · rfl
  · rw [List.dropWhile_cons, if_neg (by simp [h c rfl])]

/-- A strip fixed point decomposes: both end trims are identities. -/
theorem strip_id_parts {l : List Char} (h : pyStripList l = l) :
    l.dropWhile isWsPy = l ∧ l.reverse.dropWhile isWsPy = l.reverse := by
  unfold pyStripList at h
  have hlen := congrArg List.length h
  have hle1 : ((l.dropWhile isWsPy).reverse.dropWhile isWsPy).length
      ≤ (l.dropWhile isWsPy).length := by
    have := (List.dropWhile_sublist (l := (l.dropWhile isWsPy).reverse) isWsPy).length_le
    simpa using this
  have hle2 : (l.dropWhile isWsPy).length ≤ l.length :=
    (List.dropWhile_sublist _).length_le
  rw [List.length_reverse] at hlen
  have h1 : (l.dropWhile isWsPy).length = l.length := by omega
  have hdw : l.dropWhile isWsPy = l := dropWhile_eq_self_of_length h1
  refine ⟨hdw, ?_⟩
  rw [hdw] at h
  have h2 := congrArg List.reverse h
  rwa [List.reverse_reverse] at h2

theorem strip_id_head_ws {l : List Char} (h : pyStripList l = l) :
    ∀ c, l.head? = some c → isWsPy c = false :=
  dropWhile_eq_self_head (strip_id_parts h).1

theorem strip_id_last_ws {l : List Char} (h : pyStripList l = l) :
    ∀ c, l.getLast? = some c → isWsPy c = false := by
  intro c hc
  refine dropWhile_eq_self_head (strip_id_parts h).2 c ?_
  rwa [List.head?_reverse]

theorem pyStripList_eq_self_of {l : List Char}
    (hh : ∀ c, l.head? = some c → isWsPy c = false)
    (hl : ∀ c, l.getLast? = some c → isWsPy c = false) : pyStripList l = l := by
  unfold pyStripList
  rw [dropWhile_eq_self_of_head hh,
    dropWhile_eq_self_of_head (fun c hc => hl c (by rwa [List.head?_reverse] at hc)),
    List.reverse_reverse]

theorem grp2Aux_spec {rest : List Char} :
    ∀ (a2 acc : List Char), (∀ x ∈ a2, x ≠ ')' ∧ x ≠ '\n') →
      grp2Aux acc (a2 ++ ')' :: rest) = some (acc.reverse ++ a2) := by
  intro a2
  induction a2 with
  | nil =>
    intro acc _
    simp [grp2Aux]
  | cons x t ih =>
    intro acc hx
    have h1 := hx x (by simp)
    show grp2Aux acc (x :: (t ++ ')' :: rest)) = _
    rw [grp2Aux, if_neg h1.1, if_neg h1.2, ih (x :: acc) (fun y hy => hx y (by simp [hy]))]
    simp

theorem grp2_spec {art rest : List Char} (hne : art ≠ [])
    (hart : ∀ x ∈ art, x ≠ ')' ∧ x ≠ '\n') :
    grp2 (art ++ ')' :: rest) = some art := by
  rcases art with - | ⟨a, t⟩
  · exact absurd rfl hne
  · show grp2 (a :: (t ++ ')' :: rest)) = _
    rw [grp2, if_neg (hart a (by simp)).2,
      grp2Aux_spec t [a] (fun y hy => hart y (by simp [hy]))]
    simp

theorem dropWhile_append_of_exists {α : Type} {p : α → Bool} :
    ∀ {l₁ : List α} (l₂ : List α), (∃ x ∈ l₁, p x = false) →
      (l₁ ++ l₂).dropWhile p = l₁.dropWhile p ++ l₂ := by
  intro l₁
  induction l₁ with
  | nil =>
    intro l₂ h
    simp at h
  | cons c t ih =>
    intro l₂ h
    rw [List.cons_append, List.dropWhile_cons, List.dropWhile_cons]
    by_cases hc : p c = true
    · rw [if_pos hc, if_pos hc]
      refine ih l₂ ?_
      obtain ⟨x, hx, hpx⟩ := h
      rcases List.mem_cons.1 hx with rfl | hx'
      · rw [hc] at hpx
        exact absurd hpx (by simp)
      · exact ⟨x, hx', hpx⟩
    · rw [if_neg hc, if_neg hc]
      rfl

theorem tryG1_none : ∀ {l : List Char}, '(' ∉ l → ∀ acc, tryG1 acc l = none := by
  intro l
  induction l with
  | nil => intro _ acc; rfl
  | cons c rest ih =>
    intro h acc
    rw [tryG1]
    by_cases hc : c = '\n'
    · rw [if_pos hc]
    · rw [if_neg hc]
      have hsub : '(' ∉ rest.dropWhile isWsPy := fun hm =>
        h (List.mem_cons.2 (Or.inr ((List.dropWhile_sublist _).mem hm)))
      split
      · next after heq =>
        exact absurd (heq ▸ List.mem_cons_self '(' after) hsub
      · exact ih (fun hm => h (List.mem_cons.2 (Or.inr hm))) (acc ++ [c])

theorem reSearch_none : ∀ {l : List Char}, '(' ∉ l → reSearch l = none := by
  intro l
  induction l with
  | nil => intro _; rfl
  | cons c rest ih =>
    intro h
    rw [reSearch, tryG1_none h [], ih (fun hm => h (List.mem_cons.2 (Or.inr hm)))]

theorem tryG1_spec {art rest2 : List Char} {d : Char}
    (hart_ne : art ≠ []) (hart : ∀ x ∈ art, x ≠ ')' ∧ x ≠ '\n') :
    ∀ (bs : List Char) (acc : List Char),
      bs.getLast? = some d → isWsPy d = false →
      (∀ x ∈ bs, x ≠ '(' ∧ x ≠ '\n') →
      tryG1 acc (bs ++ ' ' :: '(' :: (art ++ ')' :: rest2)) = some (acc ++ bs, art) := by
  intro bs
  induction bs with
  | nil =>
    intro acc hlast _ _
    simp at hlast
  | cons c bt ih =>
    intro acc hlast hdns hbs
    rw [List.cons_append, tryG1, if_neg (hbs c (by simp)).2]
    rcases bt with - | ⟨b1, bt'⟩
    · -- bs = [c]; the char after it is the separating space
      simp at hlast
      subst hlast
      simp only [List.nil_append]
      have hrest : (' ' :: '(' :: (art ++ ')' :: rest2)).dropWhile isWsPy
          = '(' :: (art ++ ')' :: rest2) := by
        rw [List.dropWhile_cons, if_pos (by decide), List.dropWhile_cons,
          if_neg (by decide)]
      rw [hrest]
      split
      · next after heq =>
        rw [List.cons.injEq] at heq
        rw [← heq.2, grp2_spec hart_ne hart]
      · next x heq =>
        exact absurd (heq _ rfl) (fun h => h)
    · -- bs = c :: b1 :: bt': the tail still holds the non-blank last character
      have htail_ne : (b1 :: bt') ≠ [] := by simp
      have hlast2 : (b1 :: bt').getLast? = some d := by
        rwa [List.getLast?_cons_cons] at hlast
      have hex : ∃ x ∈ b1 :: bt', isWsPy x = false := by
        refine ⟨d, ?_, hdns⟩
        have hgl := List.getLast?_eq_getLast (b1 :: bt') htail_ne
        rw [hgl] at hlast2
        have hd2 : (b1 :: bt').getLast htail_ne = d := by
          injection hlast2
        rw [← hd2]
        exact List.getLast_mem htail_ne
      set X : List Char := ' ' :: '(' :: (art ++ ')' :: rest2) with hX
      simp only [List.cons_append]
      have hdwne : (b1 :: bt').dropWhile isWsPy ≠ [] := by
        intro hnil
        rw [List.dropWhile_eq_nil_iff] at hnil
        obtain ⟨x, hx, hpx⟩ := hex
        rw [hnil x hx] at hpx
        exact absurd hpx (by simp)
      rcases hdw : (b1 :: bt').dropWhile isWsPy with - | ⟨e, t2⟩
      · exact absurd hdw hdwne
      · have he : e ∈ b1 :: bt' := (List.dropWhile_sublist _).mem (by rw [hdw]; simp)
        have hep : e ≠ '(' := (hbs e (by simp [he])).1
        have hdw2 : (b1 :: (bt' ++ X)).dropWhile isWsPy = e :: (t2 ++ X) := by
          rw [← List.cons_append, dropWhile_append_of_exists _ hex, hdw, List.cons_append]
        rw [hdw2]
        split
        · next after heq =>
          rw [List.cons.injEq] at heq
          exact absurd heq.1 hep
        · have hbs2 : ∀ x ∈ b1 :: bt', x ≠ '(' ∧ x ≠ '\n' :=
            fun x hx => hbs x (by simp [hx])
          have := ih (acc ++ [c]) hlast2 hdns hbs2
          rw [hX] at this ⊢
          simp only [List.cons_append] at this
          rw [this]
          simp

theorem reSearch_spec {art rest2 : List Char} {d : Char} {body : List Char}
    (hbody_ne : body ≠ []) (hlast : body.getLast? = some d) (hdns : isWsPy d = false)
    (hbody : ∀ x ∈ body, x ≠ '(' ∧ x ≠ '\n')
    (hart_ne : art ≠ []) (hart : ∀ x ∈ art, x ≠ ')' ∧ x ≠ '\n') :
    reSearch (body ++ ' ' :: '(' :: (art ++ ')' :: rest2)) = some (body, art) := by
  rcases body with - | ⟨b0, bt⟩
  · exact absurd rfl hbody_ne
  · rw [List.cons_append, reSearch, ← List.cons_append,
      tryG1_spec hart_ne hart (b0 :: bt) [] hlast hdns hbody]
    simp

theorem mk_data (s : String) : String.mk s.data = s := rfl

/-- C6 counterexample: for the article `l'` — a member of the closed
article set — the rewrite is *not* `ARTICLE BODY`: the final SPARQL
escaping turns the apostrophe into a backslash-apostrophe. -/
theorem articulo_apostrofe_escapado :
    limpiar_label_sparql "Xara (l')" ≠ "l' Xara" ∧
    limpiar_label_sparql "Xara (l')" = "l\\' Xara" := by
  refine ⟨by decide, by decide⟩

/-- C6 (amended): normalization is deterministic and `"Campello (El)"`
and `"El Campello"` normalize to the same search label; in general a
label `BODY (ARTICLE)` with a recognized article is rewritten to the
SPARQL-escaped form of `ARTICLE BODY` (which equals `ARTICLE BODY` itself
exactly when neither part carries an apostrophe). -/
theorem normalizacion_articulo :
    (limpiar_label_sparql "Campello (El)" = "El Campello" ∧
     limpiar_label_sparql "El Campello" = "El Campello") ∧
    ∀ (body art : String), body.data ≠ [] → pyStrip body = body →
      (∀ c ∈ body.data, c ≠ '(' ∧ c ≠ ')' ∧ c ≠ '/' ∧ c ≠ '\n') →
      art.data ≠ [] → pyStrip art = art →
      (∀ c ∈ art.data, c ≠ '(' ∧ c ≠ ')' ∧ c ≠ '/' ∧ c ≠ '\n') →
      articulos_comunes.contains (pyLower art) = true →
      limpiar_label_sparql (body ++ " (" ++ art ++ ")")
        = pyReplaceAll (art ++ " " ++ body) "'" "\\'" := by
  refine ⟨⟨by decide, by decide⟩, ?_⟩
  intro body art hbne hbstrip hbchars hane hastrip hachars hart
  have hbstripl : pyStripList body.data = body.data := congrArg String.data hbstrip
  have hastripl : pyStripList art.data = art.data := congrArg String.data hastrip
  have hdata : (body ++ " (" ++ art ++ ")").data
      = body.data ++ ' ' :: '(' :: (art.data ++ ')' :: []) := by
    rw [String.data_append, String.data_append, String.data_append]
    rw [show (" (" : String).data = [' ', '('] from by decide,
        show (")" : String).data = [')'] from by decide]
    simp
  obtain ⟨d, hd⟩ : ∃ d, body.data.getLast? = some d :=
    ⟨body.data.getLast hbne, List.getLast?_eq_getLast _ hbne⟩
  have hdns : isWsPy d = false := strip_id_last_ws hbstripl d hd
  have hsearch : reSearch (body ++ " (" ++ art ++ ")").data
      = some (body.data, art.data) := by
    rw [hdata]
    exact reSearch_spec hbne hd hdns
      (fun x hx => ⟨(hbchars x hx).1, (hbchars x hx).2.2.2⟩) hane
      (fun x hx => ⟨(hachars x hx).2.1, (hachars x hx).2.2.2⟩)
  have hslash : ((body ++ " (" ++ art ++ ")").data.any (fun c => c = '/')) = false := by
    rw [List.any_eq_false]
    intro x hx
    rw [hdata] at hx
    simp only [List.mem_append, List.mem_cons, List.not_mem_nil, or_false] at hx
    rcases hx with hx | rfl | rfl | hx | rfl
    · simp [(hbchars x hx).2.2.1]
    · decide
    · decide
    · simp [(hachars x hx).2.2.1]
    · decide
  have hstrip3 : pyStrip (art ++ " " ++ body) = art ++ " " ++ body := by
    have hdata2 : (art ++ " " ++ body).data = art.data ++ ' ' :: body.data := by
      rw [String.data_append, String.data_append,
        show (" " : String).data = [' '] from by decide]
      simp
    refine String.ext ?_
    show pyStripList (art ++ " " ++ body).data = (art ++ " " ++ body).data
    rw [hdata2]
    apply pyStripList_eq_self_of
    · intro c hc
      rw [List.head?_append, List.head?_eq_head hane, Option.or_some] at hc
      have hc2 : art.data.head? = some c := by
        rw [List.head?_eq_head hane]
        exact hc.symm ▸ rfl
      exact strip_id_head_ws hastripl c hc2
    · intro c hc
      rw [show (' ' :: body.data) = [' '] ++ body.data from rfl] at hc
      rw [← List.append_assoc, List.getLast?_append, hd, Option.or_some] at hc
      have : c = d := by injection hc.symm
      rw [this]
      exact hdns
  unfold limpiar_label_sparql
  rw [if_neg (by rw [hdata]; simp)]
  rw [if_neg (by rw [hslash]; exact Bool.false_ne_true)]
  dsimp only []
  rw [hsearch]
  dsimp only []
  rw [mk_data, mk_data, hbstrip, hastrip, if_pos hart, hstrip3]

/-- C6 witness: the amended rewrite at `"Campello (El)"`. -/
theorem normalizacion_articulo_witness :
    limpiar_label_sparql ("Campello" ++ " (" ++ "El" ++ ")")
      = pyReplaceAll ("El" ++ " " ++ "Campello") "'" "\\'" :=
  normalizacion_articulo.2 "Campello" "El" (by decide) (by decide) (by decide)
    (by decide) (by decide) (by decide) (by decide)

/-- C7: an empty or all-whitespace label normalizes to the empty string —
total, no exception. -/
theorem etiqueta_blanca_vacia (s : String) (h : ∀ c ∈ s.data, isWsPy c = true) :
    limpiar_label_sparql s = "" := by
  unfold limpiar_label_sparql
  by_cases hnil : s.data = []
  · rw [if_pos hnil]
  · rw [if_neg hnil]
    have hslash : (s.data.any (fun c => c = '/')) = false := by
      rw [List.any_eq_false]
      intro x hx
      have hw := h x hx
      simp only [decide_eq_true_eq]
      intro hxe
      rw [hxe] at hw
      exact absurd hw (by decide)
    have hpar : '(' ∉ s.data := by
      intro hmem
      have hw := h _ hmem
      exact absurd hw (by decide)
    rw [if_neg (by rw [hslash]; exact Bool.false_ne_true)]
    dsimp only []
    rw [reSearch_none hpar]
    dsimp only []
    have hstrip : pyStripList s.data = [] := by
      unfold pyStripList
      rw [List.dropWhile_eq_nil_iff.2 h]
      rfl
    show pyReplaceAll (pyStrip s) "'" "\\'" = ""
    unfold pyStrip
    rw [hstrip]
    rfl

/-- C7 witness: the normalizer at a concrete all-whitespace label. -/
theorem etiqueta_blanca_vacia_witness :
    limpiar_label_sparql " \t " = "" :=
  etiqueta_blanca_vacia " \t " (by decide)

end AguaCultivos
